import Mathlib

/-
Shallow embedding of the markup conversion engine of ronasit-figma-export
(src/markup.js: convertFigmaToMarkup and its helpers), together with proofs
about the claims of the natural-language specification.

Modelling conventions:
* JS numbers are modelled as exact fractions (structure Q below) with a
  positive denominator for every value the engine constructs; float
  rounding of JS is not modelled (none of the verified properties depends
  on it: every number the scenarios use is exactly representable).
* Missing / undefined object attributes are modelled with Option; a JS
  value that must be an array to be used (Array.isArray guard) is an
  Option (List _), with none covering both a missing and a non-array value.
* JS Map is an association list with in-place overwrite on set, first-hit
  lookup; JS object iteration (Object.entries) is the list order, which
  matches the deterministic insertion-order iteration of JS.
* Reference equality (node === figmaNode) is modelled by structural
  equality nodeEqb; inside one conversion run the engine only compares the
  root node against registered nodes, where the two coincide on trees.
-/

namespace FigmaMarkup

/-- Exact-fraction model of a JS number: value num/den.  All values built by
the engine have den > 0; operations are gcd-free so that kernel evaluation
(decide) works. -/
structure Q where
  num : Int
  den : Int
deriving DecidableEq, Repr

def qAdd (a b : Q) : Q := ⟨a.num * b.den + b.num * a.den, a.den * b.den⟩

def qSub (a b : Q) : Q := ⟨a.num * b.den - b.num * a.den, a.den * b.den⟩

def qMul (a b : Q) : Q := ⟨a.num * b.num, a.den * b.den⟩

/-- JS division, with the sign normalised into the numerator. -/
def qDiv (a b : Q) : Q :=
  let n := a.num * b.den
  let d := a.den * b.num
  if d < 0 then ⟨-n, -d⟩ else ⟨n, d⟩

/-- Value comparison a < b (valid for positive denominators). -/
def qLt (a b : Q) : Bool := a.num * b.den < b.num * a.den

/-- Value is the JS number 0 (=== 0 comparison, denominator nonzero). -/
def qIsZero (a : Q) : Bool := a.num == 0

/-- Number.isInteger: the value is mathematically an integer. -/
def qIsInt (a : Q) : Bool := a.num % a.den == 0

/-- Integer value of an integral Q (exact division). -/
def qIntVal (a : Q) : Int := a.num / a.den

/-- Value is strictly negative (for the sign of toFixed output). -/
def qNeg (a : Q) : Bool := a.num * a.den < 0

/-- Math.round: floor(x + 1/2), matching JS half-up rounding. -/
def qRound (a : Q) : Int := Int.fdiv (2 * a.num + a.den) (2 * a.den)

def qOne : Q := ⟨1, 1⟩

def qTwo : Q := ⟨2, 1⟩

def q255 : Q := ⟨255, 1⟩

/-- Three decimal digits of n < 1000, zero padded (the fractional block of
toFixed(3)). -/
def pad3digits (n : Nat) : String :=
  String.mk [Nat.digitChar (n / 100 % 10), Nat.digitChar (n / 10 % 10), Nat.digitChar (n % 10)]

/-- JS Number.prototype.toFixed(3): decimal rendering with exactly three
fractional digits, ties rounded away from zero on the magnitude. -/
def toFixed3 (q : Q) : String :=
  let a := q.num.natAbs
  let d := q.den.natAbs
  let n := (a * 2000 + d) / (2 * d)
  (if qNeg q then "-" else "") ++ toString (n / 1000) ++ "." ++ pad3digits (n % 1000)

/-- formatNum of src/markup.js line 43: integers are rendered as-is, other
numbers with toFixed(3). -/
def formatNum (q : Q) : String :=
  if qIsInt q then toString (qIntVal q) else toFixed3 q

/-- Figma color object; the alpha field a is only present on shadow colors. -/
structure JsColor where
  r : Q
  g : Q
  b : Q
  a : Option Q
deriving DecidableEq, Repr

/-- The hex branch of colorToCss: ((1<<24) + (r<<16) + (g<<8) + b).toString(16).slice(1),
with a leading '#'. -/
def hexOfColor (r g b : Int) : String :=
  let n : Int := (1 <<< 24) + r * (1 <<< 16) + g * (1 <<< 8) + b
  let s := (if n < 0 then "-" else "") ++ String.mk (Nat.toDigits 16 n.natAbs)
  "#" ++ s.drop 1

/-- colorToCss of src/markup.js line 48: alpha below 1 gives an rgba() value,
otherwise a 6-digit hex value. -/
def colorToCss (c : JsColor) (opacity : Option Q) : String :=
  let a := opacity.getD qOne
  if qLt a qOne then
    "rgba(" ++ toString (qRound (qMul c.r q255)) ++ ", " ++
      toString (qRound (qMul c.g q255)) ++ ", " ++
      toString (qRound (qMul c.b q255)) ++ ", " ++ formatNum a ++ ")"
  else
    hexOfColor (qRound (qMul c.r q255)) (qRound (qMul c.g q255)) (qRound (qMul c.b q255))

/-! String helpers mirroring the JS string operations used by the engine.
All are defined on the char list so that kernel evaluation works. -/

def isWsChar (c : Char) : Bool := c == ' ' || c == '\t' || c == '\n' || c == '\r'

/-- JS String.prototype.trim (the engine only ever trims ASCII spaces). -/
def jsTrim (s : String) : String :=
  String.mk (((s.data.dropWhile isWsChar).reverse.dropWhile isWsChar).reverse)

/-- JS String.prototype.toLowerCase on the ASCII range. -/
def jsToLower (s : String) : String := String.mk (s.data.map Char.toLower)

/-- JS String.prototype.repeat. -/
def strRepeat (s : String) (n : Nat) : String := String.mk (List.flatten (List.replicate n s.data))

/-- The pattern list is a leading segment of the subject list. -/
def startsWithL : List Char → List Char → Bool
  | [], _ => true
  | _ :: _, [] => false
  | p :: ps, c :: cs => p == c && startsWithL ps cs

/-- JS String.prototype.startsWith. -/
def strStartsWith (s pat : String) : Bool := startsWithL pat.data s.data

def containsL : List Char → List Char → Bool
  | s, pat =>
    match s with
    | [] => startsWithL pat []
    | _ :: rest => startsWithL pat s || containsL rest pat

/-- JS String.prototype.includes. -/
def strContains (s pat : String) : Bool := containsL s.data pat.data

def removeFirstL (pat : List Char) : List Char → List Char
  | [] => []
  | c :: rest =>
    if startsWithL pat (c :: rest) then List.drop pat.length (c :: rest)
    else c :: removeFirstL pat rest

/-- JS String.prototype.replace with a plain-string pattern and empty
replacement: removes the first occurrence only. -/
def jsReplaceFirst (s pat : String) : String := String.mk (removeFirstL pat.data s.data)

/-- Collapse every maximal run of characters rejected by keep into one copy
of rep (the common core of the two regex replaces of the engine). -/
def collapseRuns (keep : Char → Bool) (rep : Char) : Bool → List Char → List Char
  | _, [] => []
  | inRun, c :: rest =>
    if keep c then c :: collapseRuns keep rep false rest
    else if inRun then collapseRuns keep rep true rest
    else rep :: collapseRuns keep rep true rest

def isSanitizeAllowed (c : Char) : Bool :=
  (97 ≤ c.toNat && c.toNat ≤ 122) || (48 ≤ c.toNat && c.toNat ≤ 57) || c == '_' || c == '-'

/-- sanitize of src/markup.js line 26: lowercase, then every run of
characters outside [a-z0-9_-] becomes a single underscore. -/
def sanitize (s : String) : String :=
  String.mk (collapseRuns isSanitizeAllowed '_' false (jsToLower s).data)

def jsIsAlnum (c : Char) : Bool :=
  (97 ≤ c.toNat && c.toNat ≤ 122) || (65 ≤ c.toNat && c.toNat ≤ 90) ||
    (48 ≤ c.toNat && c.toNat ≤ 57)

def splitOnSpace : List Char → List (List Char)
  | [] => [[]]
  | c :: rest =>
    if c == ' ' then [] :: splitOnSpace rest
    else
      match splitOnSpace rest with
      | [] => [[c]]
      | w :: ws => (c :: w) :: ws

def capitalizeWord : List Char → List Char
  | [] => []
  | c :: cs => Char.toUpper c :: cs

/-- toPascalCase of src/markup.js line 33: non-alphanumeric runs become
spaces, words are capitalized and joined. -/
def toPascalCase (s : String) : String :=
  String.mk (List.flatten
    (((splitOnSpace (collapseRuns jsIsAlnum ' ' false s.data)).filter
        (fun w => !w.isEmpty)).map capitalizeWord))

/-- JS truthiness of a possibly-missing string (empty string is falsy). -/
def truthyOpt (o : Option String) : Option String :=
  match o with
  | some s => if s == "" then none else some s
  | none => none

/-- JS String(x) conversion of a possibly-undefined string attribute. -/
def jsStringOf : Option String → String
  | some s => s
  | none => "undefined"

/-! The node model: the attributes of a Figma document node that the engine
reads.  Every attribute the code guards with a presence / typeof check is an
Option field. -/

structure BBox where
  x : Q
  y : Q
  width : Q
  height : Q
deriving DecidableEq, Repr

/-- A paint entry of node.fills / node.strokes. -/
structure Fill where
  ftype : Option String
  visible : Option Bool
  color : Option JsColor
  opacity : Option Q
  scaleMode : Option String
deriving DecidableEq, Repr

structure EffectOffset where
  x : Option Q
  y : Option Q
deriving DecidableEq, Repr

structure Effect where
  etype : Option String
  visible : Option Bool
  offset : Option EffectOffset
  radius : Option Q
  spread : Option Q
  color : Option JsColor
deriving DecidableEq, Repr

/-- One variable reference of node.boundVariables (an object with type/id). -/
structure VarAlias where
  vtype : Option String
  id : Option String
deriving DecidableEq, Repr

/-- A boundVariables entry is either a single reference object or an array
of references; the code distinguishes the two with Array.isArray. -/
inductive BoundVal where
  | one (v : VarAlias)
  | many (vs : List VarAlias)
deriving DecidableEq, Repr

structure BoundVars where
  fills : Option BoundVal
  fontStyle : Option BoundVal
  fontFamily : Option BoundVal
  fontSize : Option BoundVal
  strokes : Option BoundVal
  effects : Option BoundVal
deriving DecidableEq, Repr

structure TextStyle where
  fontSize : Option Q
  fontStyle : Option String
  fontFamily : Option String
  letterSpacing : Option Q
  lineHeightPercentFontSize : Option Q
  textAlignHorizontal : Option String
deriving DecidableEq, Repr

structure Constraints where
  horizontal : Option String
  vertical : Option String
deriving DecidableEq, Repr

/-- A JS primitive value of a component property. -/
inductive JsVal where
  | str (s : String)
  | num (q : Q)
  | boolean (b : Bool)
  | other
deriving DecidableEq, Repr

/-- A componentProperties entry value: either an object with a defined
.value field, or the bare value itself (the code accepts both). -/
inductive PropVal where
  | withValue (v : JsVal)
  | plain (v : JsVal)
deriving DecidableEq, Repr

structure AimRatio where
  x : Option Q
  y : Option Q
deriving DecidableEq, Repr

structure NodeData where
  id : Option String
  name : Option String
  ntype : Option String
  characters : Option String
  componentId : Option String
  componentProperties : Option (List (String × PropVal))
  isFixed : Option Bool
  layoutPositioning : Option String
  absoluteBoundingBox : Option BBox
  constraints : Option Constraints
  fills : Option (List Fill)
  strokes : Option (List Fill)
  effects : Option (List Effect)
  opacity : Option Q
  cornerRadius : Option Q
  boundVariables : Option BoundVars
  style : Option TextStyle
  overflowDirection : Option String
  clipsContent : Option Bool
  layoutMode : Option String
  paddingLeft : Option Q
  paddingRight : Option Q
  paddingTop : Option Q
  paddingBottom : Option Q
  itemSpacing : Option Q
  layoutWrap : Option String
  primaryAxisAlignItems : Option String
  counterAxisAlignItems : Option String
  maxWidth : Option Q
  maxHeight : Option Q
  layoutSizingHorizontal : Option String
  layoutSizingVertical : Option String
  targetAspectRatio : Option AimRatio
  preserveRatio : Option Bool
deriving DecidableEq, Repr

inductive Node where
  | mk (data : NodeData) (children : List Node)

def Node.data : Node → NodeData
  | .mk d _ => d

def Node.children : Node → List Node
  | .mk _ cs => cs

/-- A NodeData with every attribute missing; concrete nodes are built by
record update from it. -/
def emptyData : NodeData :=
  ⟨none, none, none, none, none, none, none, none, none, none, none, none,
   none, none, none, none, none, none, none, none, none, none, none, none,
   none, none, none, none, none, none, none, none, none, none⟩

mutual
/-- Structural equality on nodes, modelling the reference equality checks
of the engine (=== only ever compares nodes of one document tree). -/
def nodeEqb : Node → Node → Bool
  | .mk d cs, .mk d' cs' => d == d' && nodeListEqb cs cs'
def nodeListEqb : List Node → List Node → Bool
  | [], [] => true
  | _ :: _, [] => false
  | [], _ :: _ => false
  | n :: ns, m :: ms => nodeEqb n m && nodeListEqb ns ms
end

abbrev VMap := List (String × String)
abbrev PMap := List (String × Option Node)
abbrev IMap := List (String × Node)
abbrev CMap := List (String × Node)

/-- JS Map.prototype.set: overwrite in place when the key exists, append
otherwise. -/
def mapSet {α β : Type} [BEq α] (m : List (α × β)) (k : α) (v : β) : List (α × β) :=
  if m.any (fun p => p.1 == k) then m.map (fun p => if p.1 == k then (k, v) else p)
  else m ++ [(k, v)]

/-- JS Map.prototype.get. -/
def mapGet {α β : Type} [BEq α] (m : List (α × β)) (k : α) : Option β :=
  (m.find? (fun p => p.1 == k)).map (fun p => p.2)

mutual
/-- buildParentMap of src/markup.js line 87: node id to parent node, over
the whole document; only truthy ids are recorded. -/
def buildParentMap (node : Node) (parent : Option Node) (m : PMap) : PMap :=
  match node with
  | .mk d cs =>
    let m1 := match truthyOpt d.id with
      | some i => mapSet m i parent
      | none => m
    buildParentMapList cs (Node.mk d cs) m1
def buildParentMapList : List Node → Node → PMap → PMap
  | [], _, m => m
  | c :: cs, p, m => buildParentMapList cs p (buildParentMap c (some p) m)
end

mutual
/-- buildIdMap of src/markup.js line 101: node id to node, over the whole
document. -/
def buildIdMap (node : Node) (m : IMap) : IMap :=
  match node with
  | .mk d cs =>
    let m1 := match truthyOpt d.id with
      | some i => mapSet m i (Node.mk d cs)
      | none => m
    buildIdMapList cs m1
def buildIdMapList : List Node → IMap → IMap
  | [], m => m
  | c :: cs, m => buildIdMapList cs (buildIdMap c m)
end

/-- findMasterComponent of src/markup.js line 114. -/
def findMasterComponent (imap : IMap) (n : Node) : Option Node :=
  match truthyOpt n.data.componentId with
  | some cid => mapGet imap cid
  | none => none

def iconNameHit (nm : String) : Bool :=
  strContains nm "icons" || strContains nm "icon_sprite"

/-- The parent-walk of isIconComponent, with explicit fuel: the JS while
loop follows parentMap links until it reaches null.  On a tree-shaped
parent map the walk can take at most one step per map entry, so the fuel
used below never runs out for maps built by buildParentMap from a tree
with unique ids. -/
def isIconComponentFuel (pmap : PMap) : Nat → Option Node → Bool
  | _, none => false
  | 0, some _ => false
  | fuel + 1, some cur =>
    let nm := jsToLower (cur.data.name.getD "")
    if iconNameHit nm then true
    else
      let parent : Option Node := match cur.data.id with
        | some i => (mapGet pmap i).getD none
        | none => none
      isIconComponentFuel pmap fuel parent

/-- isIconComponent of src/markup.js line 120. -/
def isIconComponent (pmap : PMap) (n : Node) : Bool :=
  isIconComponentFuel pmap (pmap.length + 1) (some n)

/-- getTag of src/markup.js line 59. -/
def getTag (n : Node) : String :=
  match n.data.ntype with
  | some "TEXT" => "span"
  | some "IMAGE" => "img"
  | _ => "div"

/-! The style resolver (nodeToScss of src/markup.js line 225) translated
block by block, in source order.  Each block yields the list of declaration
strings it pushes onto props. -/

/-- getScssVarById of src/markup.js line 228: linear scan of the variable
id map, first match wins. -/
def getScssVarById (vmap : VMap) (id : String) : Option String :=
  (vmap.find? (fun p => p.2 == id)).map (fun p => "var(--" ++ p.1 ++ ")")

/-- The id of a bound-variable entry: first array element's id when it is
an array, the object's id otherwise. -/
def bvFirstId : Option BoundVal → Option String
  | some (.many vs) =>
    match vs with
    | [] => none
    | v :: _ => v.id
  | some (.one v) => v.id
  | none => none

/-- The id of a bound-variable entry accepted only in array form (the
background / stroke pattern of the code). -/
def bvArrFirstId : Option BoundVal → Option String
  | some (.many vs) =>
    match vs with
    | [] => none
    | v :: _ => v.id
  | _ => none

/-- Resolve a bound variable id to a var(--name) reference, with the JS
truthiness check on the id. -/
def resolveVar (vmap : VMap) (o : Option String) : Option String :=
  match truthyOpt o with
  | some i => getScssVarById vmap i
  | none => none

/-- getPositionProps of src/markup.js line 235: one horizontal and one
vertical offset, selected by the constraints. -/
def getPositionProps (box parentBox : BBox) (constraints : Constraints) : List String :=
  let h :=
    match constraints.horizontal with
    | some "RIGHT" =>
      "right: " ++ formatNum (qSub (qAdd parentBox.x parentBox.width) (qAdd box.x box.width)) ++ "px;"
    | some "CENTER" =>
      "left: " ++ formatNum (qDiv (qSub parentBox.width box.width) qTwo) ++ "px;"
    | some "SCALE" =>
      "left: " ++ formatNum (qSub box.x parentBox.x) ++ "px;"
    | _ =>
      "left: " ++ formatNum (qSub box.x parentBox.x) ++ "px;"
  let v :=
    match constraints.vertical with
    | some "BOTTOM" =>
      "bottom: " ++ formatNum (qSub (qAdd parentBox.y parentBox.height) (qAdd box.y box.height)) ++ "px;"
    | some "CENTER" =>
      "top: " ++ formatNum (qDiv (qSub parentBox.height box.height) qTwo) ++ "px;"
    | some "SCALE" =>
      "top: " ++ formatNum (qSub box.y parentBox.y) ++ "px;"
    | _ =>
      "top: " ++ formatNum (qSub box.y parentBox.y) ++ "px;"
  [h, v]

/-- The explicit pixel width of a FIXED-sized node with known geometry. -/
def widthFixedDecl (n : Node) : List String :=
  match n.data.absoluteBoundingBox with
  | some bb => ["width: " ++ formatNum bb.width ++ "px;"]
  | none => []

/-- The explicit pixel height of a FIXED-sized node with known geometry. -/
def heightFixedDecl (n : Node) : List String :=
  match n.data.absoluteBoundingBox with
  | some bb => ["height: " ++ formatNum bb.height ++ "px;"]
  | none => []

/-- getLayoutSizingProps of src/markup.js line 270. -/
def getLayoutSizingProps (n : Node) (parentLayoutMode : Option String) : List String :=
  let widthFixed := widthFixedDecl n
  let heightFixed := heightFixedDecl n
  match parentLayoutMode with
  | some "HORIZONTAL" =>
    (if n.data.layoutSizingHorizontal == some "FIXED" then widthFixed
     else if n.data.layoutSizingHorizontal == some "FILL" then ["flex-grow: 1; flex-shrink: 1;"]
     else []) ++
    (if n.data.layoutSizingVertical == some "FIXED" then heightFixed
     else if n.data.layoutSizingVertical == some "FILL" then ["align-self: stretch;"]
     else [])
  | some "VERTICAL" =>
    (if n.data.layoutSizingVertical == some "FIXED" then heightFixed
     else if n.data.layoutSizingVertical == some "FILL" then ["flex-grow: 1; flex-shrink: 1;"]
     else []) ++
    (if n.data.layoutSizingHorizontal == some "FIXED" then widthFixed
     else if n.data.layoutSizingHorizontal == some "FILL" then ["align-self: stretch;"]
     else [])
  | _ =>
    (if n.data.layoutSizingHorizontal == some "FIXED" then widthFixed else []) ++
    (if n.data.layoutSizingVertical == some "FIXED" then heightFixed else [])

/-- The absolute / fixed positioning block of src/markup.js lines 332-344. -/
def positionProps (n : Node) (parentNode : Option Node) : List String :=
  (if n.data.isFixed == some true then ["position: fixed;"]
   else if n.data.layoutPositioning == some "ABSOLUTE" then ["position: absolute;"]
   else []) ++
  (if n.data.isFixed == some true || n.data.layoutPositioning == some "ABSOLUTE" then
    match n.data.absoluteBoundingBox, parentNode with
    | some box, some p =>
      match p.data.absoluteBoundingBox with
      | some pbox => getPositionProps box pbox (n.data.constraints.getD ⟨none, none⟩)
      | none => []
    | _, _ => []
   else [])

/-- The first fill is explicitly marked invisible (fills[0].visible === false). -/
def firstFillHidden (n : Node) : Bool :=
  match n.data.fills with
  | some (f :: _) => f.visible == some false
  | _ => false

/-- The literal-color fallback from the first fill of a list. -/
def firstFillColorDecl (prop : String) (fs : Option (List Fill)) : List String :=
  match fs with
  | some (f :: _) =>
    match f.color with
    | some c => [prop ++ ": " ++ colorToCss c f.opacity ++ ";"]
    | none => []
  | _ => []

/-- The text block of src/markup.js lines 354-441 (only for TEXT nodes). -/
def textProps (vmap : VMap) (n : Node) : List String :=
  if n.data.ntype == some "TEXT" then
    let style := n.data.style.getD ⟨none, none, none, none, none, none⟩
    let colorDecl :=
      if !firstFillHidden n then
        match resolveVar vmap (bvFirstId (n.data.boundVariables.bind (fun b => b.fills))) with
        | some v => ["color: " ++ v ++ ";"]
        | none => firstFillColorDecl "color" n.data.fills
      else []
    let fontWeightDecl :=
      match resolveVar vmap (bvFirstId (n.data.boundVariables.bind (fun b => b.fontStyle))) with
      | some v => ["font-weight: " ++ v ++ ";"]
      | none =>
        match style.fontStyle with
        | some fs => ["font-weight: " ++ fs ++ ";"]
        | none => []
    let fontFamilyDecl :=
      match resolveVar vmap (bvFirstId (n.data.boundVariables.bind (fun b => b.fontFamily))) with
      | some v => ["font-family: " ++ v ++ ";"]
      | none =>
        match style.fontFamily with
        | some ff => ["font-family: " ++ ff ++ ";"]
        | none => []
    let fontSizeDecl :=
      match resolveVar vmap (bvFirstId (n.data.boundVariables.bind (fun b => b.fontSize))) with
      | some v => ["font-size: " ++ v ++ ";"]
      | none =>
        match style.fontSize with
        | some fs => ["font-size: " ++ formatNum fs ++ "px;"]
        | none => []
    let textAlignDecl :=
      match style.textAlignHorizontal with
      | some s =>
        let al := jsToLower s
        if al == "left" || al == "right" || al == "center" || al == "justify" then
          ["text-align: " ++ al ++ ";"]
        else []
      | none => []
    let letterSpacingDecl :=
      match style.letterSpacing with
      | some ls => ["letter-spacing: " ++ formatNum ls ++ "px;"]
      | none => []
    let lineHeightDecl :=
      match style.lineHeightPercentFontSize with
      | some lh => ["line-height: " ++ formatNum lh ++ "%;"]
      | none => []
    colorDecl ++ fontWeightDecl ++ fontFamilyDecl ++ fontSizeDecl ++ textAlignDecl ++
      letterSpacingDecl ++ lineHeightDecl
  else []

/-- The background block of src/markup.js lines 444-482 (non-TEXT nodes). -/
def bgProps (vmap : VMap) (n : Node) : List String :=
  if !firstFillHidden n && !(n.data.ntype == some "TEXT") then
    let imageDecls :=
      match n.data.fills with
      | some fs =>
        match fs.find? (fun f => f.ftype == some "IMAGE") with
        | some imageFill =>
          ["background: url(/img/image.png);"] ++
          (match imageFill.scaleMode with
           | some "FILL" => ["background-size: cover;"]
           | some "FIT" => ["background-size: contain;"]
           | some "TILE" => ["background-repeat: repeat;"]
           | some "CROP" => ["background-size: cover;", "background-position: center;"]
           | _ => [])
        | none => []
      | none => []
    let colorDecl :=
      match resolveVar vmap (bvArrFirstId (n.data.boundVariables.bind (fun b => b.fills))) with
      | some v => ["background: " ++ v ++ ";"]
      | none => firstFillColorDecl "background" n.data.fills
    imageDecls ++ colorDecl
  else []

def opacityProps (n : Node) : List String :=
  match n.data.opacity with
  | some o => ["opacity: " ++ formatNum o ++ ";"]
  | none => []

def radiusProps (n : Node) : List String :=
  match n.data.cornerRadius with
  | some r => ["border-radius: " ++ formatNum r ++ "px;"]
  | none => []

/-- The border block of src/markup.js lines 492-507. -/
def borderProps (vmap : VMap) (n : Node) : List String :=
  match resolveVar vmap (bvArrFirstId (n.data.boundVariables.bind (fun b => b.strokes))) with
  | some v => ["border: 1px solid " ++ v ++ ";"]
  | none =>
    match n.data.strokes with
    | some (s :: _) =>
      match s.color with
      | some c => ["border: 1px solid " ++ colorToCss c s.opacity ++ ";"]
      | none => []
    | _ => []

def isVisibleDropShadow (e : Effect) : Bool :=
  e.etype == some "DROP_SHADOW" && !(e.visible == some false)

/-- The variable id bound to the node's effects (array or object form),
accepted only as a truthy-id VARIABLE_ALIAS. -/
def shadowVarIdOf : Option BoundVal → Option String
  | some (.many vs) =>
    match vs.find? (fun v => v.vtype == some "VARIABLE_ALIAS" && (truthyOpt v.id).isSome) with
    | some v => v.id
    | none => none
  | some (.one v) =>
    if v.vtype == some "VARIABLE_ALIAS" && (truthyOpt v.id).isSome then v.id else none
  | none => none

/-- The per-effect shadow color: the node's bound variable when resolvable,
otherwise the effect's own literal color. -/
def shadowColorOf (vmap : VMap) (svid : Option String) (e : Effect) : Option String :=
  let c1 := match svid with
    | some i => getScssVarById vmap i
    | none => none
  match c1 with
  | some s => some s
  | none => e.color.map (fun c => colorToCss c c.a)

/-- The raw x y blur spread color template of one shadow entry. -/
def shadowTemplate (vmap : VMap) (svid : Option String) (e : Effect) : String :=
  let x := match e.offset.bind (fun o => o.x) with
    | some v => formatNum v
    | none => "0"
  let y := match e.offset.bind (fun o => o.y) with
    | some v => formatNum v
    | none => "0"
  let blur := match e.radius with
    | some v => formatNum v
    | none => "0"
  let spread := match e.spread with
    | some v => formatNum v
    | none => "0"
  let col := (shadowColorOf vmap svid e).getD "null"
  x ++ "px " ++ y ++ "px " ++ blur ++ "px " ++ spread ++ "px " ++ col

/-- One rendered shadow entry: the template with the FIRST occurrence of
the string " 0px" removed (JS .replace(' 0px', '') replaces once). -/
def shadowRender (vmap : VMap) (svid : Option String) (e : Effect) : String :=
  jsReplaceFirst (shadowTemplate vmap svid e) " 0px"

/-- The box-shadow block of src/markup.js lines 509-553. -/
def shadowProps (vmap : VMap) (n : Node) : List String :=
  match n.data.effects with
  | none => []
  | some effs =>
    let shadows := effs.filter isVisibleDropShadow
    let svid := shadowVarIdOf (n.data.boundVariables.bind (fun b => b.effects))
    let validShadows := shadows.filter (fun e => (shadowColorOf vmap svid e).isSome)
    if validShadows.isEmpty then []
    else ["box-shadow: " ++ String.intercalate ", " (validShadows.map (shadowRender vmap svid)) ++ ";"]

/-- The overflow block of src/markup.js lines 555-559. -/
def overflowProps (n : Node) : List String :=
  let clipsBranch := if n.data.clipsContent == some true then ["overflow: hidden;"] else []
  match n.data.overflowDirection with
  | some s => if !(s == "NONE") then ["overflow: scroll;"] else clipsBranch
  | none => clipsBranch

/-- The auto-layout block of src/markup.js lines 561-624. -/
def flexProps (n : Node) : List String :=
  if n.data.layoutMode == some "HORIZONTAL" || n.data.layoutMode == some "VERTICAL" then
    ["display: flex;"] ++
    (if n.data.layoutMode == some "VERTICAL" then ["flex-direction: column;"] else []) ++
    (match n.data.paddingLeft, n.data.paddingRight, n.data.paddingTop, n.data.paddingBottom with
     | some pl, some pr, some pt, some pb =>
       ["padding: " ++ formatNum pt ++ "px " ++ formatNum pr ++ "px " ++
        formatNum pb ++ "px " ++ formatNum pl ++ "px;"]
     | _, _, _, _ => []) ++
    (match n.data.itemSpacing with
     | some sp => ["gap: " ++ formatNum sp ++ "px;"]
     | none => []) ++
    (match n.data.layoutWrap with
     | some w => ["flex-wrap: " ++ (if w == "WRAP" then "wrap" else "nowrap") ++ ";"]
     | none => []) ++
    (match n.data.primaryAxisAlignItems with
     | some s =>
       let j := match s with
         | "MIN" => "flex-start"
         | "CENTER" => "center"
         | "MAX" => "flex-end"
         | "SPACE_BETWEEN" => "space-between"
         | _ => "flex-start"
       ["justify-content: " ++ j ++ ";"]
     | none => []) ++
    (match n.data.counterAxisAlignItems with
     | some s =>
       let a := match s with
         | "MIN" => "flex-start"
         | "CENTER" => "center"
         | "MAX" => "flex-end"
         | "BASELINE" => "baseline"
         | "SPACE_BETWEEN" => "space-between"
         | _ => "flex-start"
       ["align-items: " ++ a ++ ";"]
     | none => [])
  else []

def maxSizeProps (n : Node) : List String :=
  (match n.data.maxWidth with
   | some w => ["max-width: " ++ formatNum w ++ "px;"]
   | none => []) ++
  (match n.data.maxHeight with
   | some h => ["max-height: " ++ formatNum h ++ "px;"]
   | none => [])

/-- The aspect-ratio block of src/markup.js lines 635-652. -/
def aimRatioProps (n : Node) : List String :=
  let preserveBranch :=
    if n.data.preserveRatio == some true then
      match n.data.absoluteBoundingBox with
      | some bb =>
        if !qIsZero bb.height then
          ["aspect-ratio: " ++ formatNum (qDiv bb.width bb.height) ++ ";"]
        else []
      | none => []
    else []
  match n.data.targetAspectRatio with
  | some tar =>
    match tar.x, tar.y with
    | some ax, some ay =>
      if qLt ⟨0, 1⟩ ax && qLt ⟨0, 1⟩ ay then
        ["aspect-ratio: " ++ formatNum ax ++ " / " ++ formatNum ay ++ ";"]
      else preserveBranch
    | _, _ => preserveBranch
  | none => preserveBranch

/-- The design-system default table of src/markup.js line 654. -/
def defaultVars : List (String × String) :=
  [("color", "var(--text-primary)"),
   ("font-size", "var(--font-size-default)"),
   ("font-weight", "var(--typeface-regular-weight)"),
   ("font-family", "var(--typeface-primary)"),
   ("letter-spacing", "0px")]

def isDefaultProp (prop : String) : Bool :=
  defaultVars.any (fun kv => strStartsWith prop (kv.1 ++ ":") && strContains prop kv.2)

/-- The default-value suppression filter of src/markup.js line 661. -/
def filterDefaults (props : List String) : List String :=
  props.filter (fun p => !isDefaultProp p)

/-- The full declaration list of the non-INSTANCE path of nodeToScss, in
source push order (before the default filter). -/
def fullProps (vmap : VMap) (n : Node) (parentLayoutMode : Option String)
    (parentNode : Option Node) : List String :=
  positionProps n parentNode ++ textProps vmap n ++ bgProps vmap n ++ opacityProps n ++
    radiusProps n ++ borderProps vmap n ++ shadowProps vmap n ++ overflowProps n ++
    flexProps n ++ maxSizeProps n ++ getLayoutSizingProps n parentLayoutMode ++
    aimRatioProps n

/-- The ordered list of declarations the resolver emits for one node: the
INSTANCE early-return path keeps only positioning and layout sizing, every
other node gets the full list after default suppression. -/
def resolverDecls (vmap : VMap) (n : Node) (parentLayoutMode : Option String)
    (parentNode : Option Node) : List String :=
  if n.data.ntype == some "INSTANCE" then
    positionProps n parentNode ++ getLayoutSizingProps n parentLayoutMode
  else filterDefaults (fullProps vmap n parentLayoutMode parentNode)

/-- The 80-column greedy line filling of src/markup.js lines 670-680. -/
def wrapLines (line : String) : List String → List String
  | [] => if line == "" then [] else [jsTrim line]
  | p :: ps =>
    let cand := line ++ (if line == "" then "" else " ") ++ p
    if cand.length > 80 then jsTrim line :: wrapLines p ps
    else wrapLines cand ps

/-- The final rule text: first line bare, the rest behind a two-space
indent (src/markup.js lines 682-689). -/
def assembleRule (props : List String) : String :=
  match wrapLines "" props with
  | [] => ""
  | l :: ls => l ++ String.join (ls.map (fun x => "\n  " ++ x))

/-- nodeToScss of src/markup.js line 225. -/
def nodeToScss (vmap : VMap) (n : Node) (_className : String)
    (parentLayoutMode : Option String) (parentNode : Option Node) : String :=
  if n.data.ntype == some "INSTANCE" then
    String.intercalate " " (resolverDecls vmap n parentLayoutMode parentNode)
  else assembleRule (resolverDecls vmap n parentLayoutMode parentNode)

/-! The markup emitter (nodeToJsx of src/markup.js line 134) and the
orchestrator (src/markup.js lines 692-751). -/

/-- The per-run context: the variable id map and the two whole-document
indices, plus the root class that nodeToJsx captures by closure. -/
structure Ctx where
  variableIdMap : VMap
  parentMap : PMap
  idMap : IMap
  rootClass : String

/-- The class name of a node (src/markup.js lines 136-140). -/
def nodeClassOf (rootClass : String) (n : Node) (isRoot : Bool)
    (rootClassName : Option String) : String :=
  if isRoot then
    match truthyOpt rootClassName with
    | some r => r
    | none => sanitize (jsStringOf n.data.name)
  else rootClass ++ "_" ++ sanitize (jsStringOf n.data.name)

def sanitizeName (n : Node) : String := sanitize (jsStringOf n.data.name)

/-- Register a class in the class registry only when it is absent
(first visit wins, src/markup.js lines 202-204 and 144-146). -/
def cmRegister (cm : CMap) (k : String) (n : Node) : CMap :=
  if cm.any (fun p => p.1 == k) then cm else cm ++ [(k, n)]

/-- JS charAt(0).toLowerCase() + slice(1). -/
def lowerFirst (s : String) : String :=
  match s.data with
  | [] => ""
  | c :: cs => String.mk (Char.toLower c :: cs)

/-- The fallback prop name for a key with no alphanumeric characters:
underscore followed by the kept chars / decimal char codes. -/
def charCodeName (cleanKey : String) : String :=
  "_" ++ String.join (cleanKey.data.map
    (fun c => if jsIsAlnum c then String.mk [c] else toString c.toNat))

/-- One componentProperties entry rendered as JSX prop strings
(src/markup.js lines 158-184). -/
def propEntryToJsx (key : String) (pv : PropVal) : List String :=
  let cleanKey := String.mk (key.data.takeWhile (fun c => !(c == '#')))
  let pascal := toPascalCase cleanKey
  let propName0 := lowerFirst pascal
  let propName := if propName0 == "" then charCodeName cleanKey else propName0
  let propValue : JsVal := match pv with
    | .withValue v => v
    | .plain v => v
  match propValue with
  | .str s =>
    if jsToLower s == "true" then [propName ++ "=\x7btrue\x7d"]
    else if jsToLower s == "false" then [propName ++ "=\x7bfalse\x7d"]
    else [propName ++ "=\"" ++ s ++ "\""]
  | .num q => [propName ++ "=\x7b" ++ formatNum q ++ "\x7d"]
  | .boolean b => [propName ++ "=\x7b" ++ (if b then "true" else "false") ++ "\x7d"]
  | .other => []

/-- The JSX of a non-icon INSTANCE node (src/markup.js lines 154-196):
a self-closing Pascal-cased element, single line up to 80 characters,
otherwise one prop per line. -/
def instanceJsxLine (n : Node) (nodeClass indentStr : String) : String :=
  let componentName := toPascalCase (jsStringOf n.data.name)
  let propsArr :=
    ("className=\x7bstyles." ++ nodeClass ++ "\x7d") ::
    (match n.data.componentProperties with
     | some entries => List.flatten (entries.map (fun kv => propEntryToJsx kv.1 kv.2))
     | none => [])
  let jsxLine := "<" ++ componentName ++ " " ++ String.intercalate " " propsArr ++ " />"
  if jsxLine.length ≤ 80 then indentStr ++ jsxLine
  else
    indentStr ++ "<" ++ componentName ++ "\n" ++
      String.intercalate "\n" (propsArr.map (fun p => indentStr ++ "  " ++ p)) ++ "\n" ++
      indentStr ++ "/>"

/-- JS truthiness of the characters attribute. -/
def truthyChars (o : Option String) : Bool :=
  match o with
  | some s => !(s == "")
  | none => false

mutual
/-- nodeToJsx of src/markup.js line 134, threading the class registry. -/
def nodeToJsx (ctx : Ctx) (node : Node) (indent : Nat) (isRoot : Bool)
    (rootClassName : Option String) (cm : CMap) : String × CMap :=
  match node with
  | .mk d cs =>
    let n := Node.mk d cs
    let tag := getTag n
    let nodeClass := nodeClassOf ctx.rootClass n isRoot rootClassName
    let indentStr := strRepeat "  " indent
    if d.ntype == some "INSTANCE" && !isRoot then
      let cm1 := cmRegister cm nodeClass n
      let iconHit := match findMasterComponent ctx.idMap n with
        | some master => isIconComponent ctx.parentMap master
        | none => false
      if iconHit then
        (indentStr ++ "<Icon name=\"" ++ sanitizeName n ++ "\" />", cm1)
      else (instanceJsxLine n nodeClass indentStr, cm1)
    else
      let res := nodeToJsxList ctx cs (indent + 1) rootClassName cm
      let childrenJsx := if cs.isEmpty then "" else String.intercalate "\n" res.1
      let cm2 := cmRegister res.2 nodeClass n
      if isRoot then
        if !(childrenJsx == "") then
          (indentStr ++ "<div className=\x7bstyles." ++ nodeClass ++ "\x7d>" ++ "\n" ++
            childrenJsx ++ "\n" ++ indentStr ++ "</div>", cm2)
        else (indentStr ++ "<div className=\x7bstyles." ++ nodeClass ++ "\x7d></div>", cm2)
      else if tag == "img" then
        (indentStr ++ "<img className=\x7bstyles." ++ nodeClass ++ "\x7d alt=\"" ++
          sanitizeName n ++ "\" />", cm2)
      else if tag == "span" && truthyChars d.characters then
        (indentStr ++ "<span className=\x7bstyles." ++ nodeClass ++ "\x7d>" ++
          d.characters.getD "" ++ "</span>", cm2)
      else
        if !(childrenJsx == "") then
          (indentStr ++ "<" ++ tag ++ " className=\x7bstyles." ++ nodeClass ++ "\x7d>" ++ "\n" ++
            childrenJsx ++ "\n" ++ indentStr ++ "</" ++ tag ++ ">", cm2)
        else
          (indentStr ++ "<" ++ tag ++ " className=\x7bstyles." ++ nodeClass ++ "\x7d></" ++
            tag ++ ">", cm2)

def nodeToJsxList (ctx : Ctx) : List Node → Nat → Option String → CMap →
    List String × CMap
  | [], _, _, cm => ([], cm)
  | c :: cs, ind, rcn, cm =>
    let r1 := nodeToJsx ctx c ind false rcn cm
    let r2 := nodeToJsxList ctx cs ind rcn r1.2
    (r1.1 :: r2.1, r2.2)
end

/-- The test of the /position:\s*(absolute|fixed)/ regex used before
injecting position: relative (src/markup.js lines 718 and 730). -/
def posMatchAt (l : List Char) : Bool :=
  if startsWithL "position:".data l then
    let after := (List.drop 9 l).dropWhile isWsChar
    startsWithL "absolute".data after || startsWithL "fixed".data after
  else false

def posTestL : List Char → Bool
  | [] => false
  | c :: rest => posMatchAt (c :: rest) || posTestL rest

def posRegexTest (s : String) : Bool := posTestL s.data

/-- The \n to "\n  " global replace of src/markup.js line 737. -/
def expandNlL : List Char → List Char
  | [] => []
  | c :: r => if c == '\n' then '\n' :: ' ' :: ' ' :: expandNlL r else c :: expandNlL r

def indentRule (s : String) : String := String.mk (expandNlL s.data)

/-- The map from node id to "has an absolutely or fixed positioned child"
(src/markup.js lines 706-714); keyed by the possibly missing id. -/
def absOrFixedChildMap (entries : CMap) : List (Option String × Bool) :=
  entries.foldl
    (fun m p =>
      if p.2.children.isEmpty then m
      else mapSet m p.2.data.id
        (p.2.children.any
          (fun child => child.data.layoutPositioning == some "ABSOLUTE" ||
            child.data.isFixed == some true)))
    []

/-- The nested selector of a non-root class (src/markup.js lines 734-736). -/
def nestedSelector (rootClass className : String) : String :=
  if strStartsWith className (rootClass ++ "_") then
    "&" ++ className.drop rootClass.length
  else "." ++ className

/-- The text one registry entry contributes to the stylesheet
(src/markup.js lines 722-744); empty for the root node and for entries
whose rule is empty. -/
def entryRule (ctx : Ctx) (figmaNode : Node) (afMap : List (Option String × Bool))
    (rootClass : String) (className : String) (node : Node) : String :=
  if nodeEqb node figmaNode then ""
  else
    let parent : Option Node := match node.data.id with
      | some i => (mapGet ctx.parentMap i).getD none
      | none => none
    let parentLayoutMode : Option String := match parent with
      | some p => truthyOpt p.data.layoutMode
      | none => none
    let rule := nodeToScss ctx.variableIdMap node className parentLayoutMode parent
    let ruleWithRel :=
      if mapGet afMap node.data.id == some true && !posRegexTest rule then
        "position: relative; " ++ rule
      else rule
    if ruleWithRel == "" then ""
    else
      let nested := nestedSelector rootClass className
      let indented := indentRule ruleWithRel
      if !(strContains indented "\n") then
        "  " ++ nested ++ " \x7b" ++ indented ++ "\x7d\n"
      else
        "  " ++ nested ++ " \x7b" ++ indented ++ "\n    \x7d\n"

/-- The stylesheet assembly of src/markup.js lines 695-746: the root rule
first, then one nested rule per registry entry in first-visit order. -/
def buildScss (ctx : Ctx) (figmaNode : Node) (rootClass : String)
    (classEntries : CMap) : String :=
  match classEntries.find? (fun p => nodeEqb p.2 figmaNode) with
  | none => ""
  | some _ =>
    let afMap := absOrFixedChildMap classEntries
    let rootRule := nodeToScss ctx.variableIdMap figmaNode rootClass none none
    let rootRuleWithRel :=
      if mapGet afMap figmaNode.data.id == some true && !posRegexTest rootRule then
        "position: relative; " ++ rootRule
      else rootRule
    "." ++ rootClass ++ " \x7b" ++
      (if rootRuleWithRel == "" then "" else rootRuleWithRel ++ "\n") ++
      String.join (classEntries.map (fun p => entryRule ctx figmaNode afMap rootClass p.1 p.2)) ++
      "\x7d"

/-- The root class of the conversion (src/markup.js line 692). -/
def rootClassOf (figmaNode : Node) (rootClassOverride : Option String) : String :=
  sanitize (match truthyOpt rootClassOverride with
    | some r => r
    | none => jsStringOf figmaNode.data.name)

def ctxOf (figmaDocument : Node) (vmap : VMap) (rootClass : String) : Ctx :=
  ⟨vmap, buildParentMap figmaDocument none [], buildIdMap figmaDocument [], rootClass⟩

/-- convertFigmaToMarkup of src/markup.js line 16, with the variable id
map (read from variableIds.json by the CLI wrapper) passed explicitly.
Returns the (markup, stylesheet) pair. -/
def convertFigmaToMarkup (figmaNode : Node) (rootClassOverride : Option String)
    (figmaDocument : Node) (variableIdMap : VMap) : String × String :=
  let rootClass := rootClassOf figmaNode rootClassOverride
  let ctx := ctxOf figmaDocument variableIdMap rootClass
  let r := nodeToJsx ctx figmaNode 0 true (some rootClass) []
  (r.1, buildScss ctx figmaNode rootClass r.2)

/-- The class registry a conversion run ends with (the classMap of the
engine after the markup walk). -/
def registryOf (figmaNode : Node) (rootClassOverride : Option String)
    (figmaDocument : Node) (variableIdMap : VMap) : CMap :=
  let rootClass := rootClassOf figmaNode rootClassOverride
  (nodeToJsx (ctxOf figmaDocument variableIdMap rootClass) figmaNode 0 true
    (some rootClass) []).2

/-- The class names that receive a rule in the produced stylesheet: the
root class plus every registry entry whose contributed rule text is
nonempty. -/
def scssRuleClasses (figmaNode : Node) (rootClassOverride : Option String)
    (figmaDocument : Node) (variableIdMap : VMap) : List String :=
  let rootClass := rootClassOf figmaNode rootClassOverride
  let ctx := ctxOf figmaDocument variableIdMap rootClass
  let entries := registryOf figmaNode rootClassOverride figmaDocument variableIdMap
  match entries.find? (fun p => nodeEqb p.2 figmaNode) with
  | none => []
  | some _ =>
    rootClass :: entries.filterMap
      (fun p =>
        if entryRule ctx figmaNode (absOrFixedChildMap entries) rootClass p.1 p.2 == "" then
          none
        else some p.1)

mutual
/-- The class names referenced as styles.X in the markup a node emits,
mirroring nodeToJsx branch for branch (icon instances reference none;
img and text leaves drop their children's markup and hence their
references). -/
def jsxRefClasses (ctx : Ctx) (node : Node) (isRoot : Bool)
    (rootClassName : Option String) : List String :=
  match node with
  | .mk d cs =>
    let n := Node.mk d cs
    let tag := getTag n
    let nodeClass := nodeClassOf ctx.rootClass n isRoot rootClassName
    if d.ntype == some "INSTANCE" && !isRoot then
      let iconHit := match findMasterComponent ctx.idMap n with
        | some master => isIconComponent ctx.parentMap master
        | none => false
      if iconHit then [] else [nodeClass]
    else if isRoot then nodeClass :: jsxRefClassesList ctx cs rootClassName
    else if tag == "img" then [nodeClass]
    else if tag == "span" && truthyChars d.characters then [nodeClass]
    else nodeClass :: jsxRefClassesList ctx cs rootClassName

def jsxRefClassesList (ctx : Ctx) : List Node → Option String → List String
  | [], _ => []
  | c :: cs, rcn => jsxRefClasses ctx c false rcn ++ jsxRefClassesList ctx cs rcn
end

/-! Auxiliary predicates used by the claim statements. -/

/-- The keys of a class registry, in insertion order. -/
def cmKeys (cm : CMap) : List String := cm.map Prod.fst

/-- The property prefixes of positioning and layout-sizing declarations. -/
def posSizingKeys : List String :=
  ["position:", "left:", "right:", "top:", "bottom:", "width:", "height:",
   "flex-grow:", "align-self:"]

/-- The declaration is a positioning or layout-sizing declaration. -/
def isPosSizingDecl (p : String) : Bool :=
  posSizingKeys.any (fun k => strStartsWith p k)

/-- The two lists disagree at some position before either of them ends
(so no extension of the second can start with the first). -/
def mismatchWithin : List Char → List Char → Bool
  | [], _ => false
  | _, [] => false
  | a :: as, b :: bs => a != b || mismatchWithin as bs

/-! Concrete scenario inputs from the specification. -/

/-- Scenario A: the TEXT child "Title" with characters "Hi" and one opaque
black literal fill. -/
def scenarioATitle : Node := Node.mk { emptyData with
  id := some "1:2", name := some "Title", ntype := some "TEXT",
  characters := some "Hi",
  fills := some [{ ftype := none, visible := none,
                   color := some ⟨⟨0, 1⟩, ⟨0, 1⟩, ⟨0, 1⟩, none⟩,
                   opacity := none, scaleMode := none }] } []

/-- Scenario A: the root FRAME "Card" with vertical auto-layout and
itemSpacing 8. -/
def scenarioACard : Node := Node.mk { emptyData with
  id := some "1:1", name := some "Card", ntype := some "FRAME",
  layoutMode := some "VERTICAL", itemSpacing := some ⟨8, 1⟩ } [scenarioATitle]

/-- Scenario B: a fixed node 10px from the parent's right and bottom edge,
with RIGHT / BOTTOM constraints. -/
def scenarioBNode : Node := Node.mk { emptyData with
  id := some "2:1", name := some "Badge", ntype := some "FRAME",
  isFixed := some true,
  constraints := some ⟨some "RIGHT", some "BOTTOM"⟩,
  absoluteBoundingBox := some ⟨⟨40, 1⟩, ⟨40, 1⟩, ⟨50, 1⟩, ⟨50, 1⟩⟩ } []

/-- Scenario B: the parent of scenarioBNode, a 100 by 100 frame at the
origin. -/
def scenarioBParent : Node := Node.mk { emptyData with
  id := some "2:0", name := some "Screen", ntype := some "FRAME",
  absoluteBoundingBox := some ⟨⟨0, 1⟩, ⟨0, 1⟩, ⟨100, 1⟩, ⟨100, 1⟩⟩ } [scenarioBNode]

/-- Scenario C: the INSTANCE child with one componentProperties entry
whose string value is "True". -/
def scenarioCInstance : Node := Node.mk { emptyData with
  id := some "3:2", name := some "Component Name", ntype := some "INSTANCE",
  componentProperties := some [("Active#123", .withValue (.str "True"))] } []

/-- Scenario C: a root frame holding the instance. -/
def scenarioCCard : Node := Node.mk { emptyData with
  id := some "3:1", name := some "Card", ntype := some "FRAME" } [scenarioCInstance]

/-- An INSTANCE node with position: fixed, used to exercise the
positioning-only styling of instances. -/
def fixedInstanceNode : Node := Node.mk { emptyData with
  id := some "3:9", name := some "Chip", ntype := some "INSTANCE",
  isFixed := some true } []

/-- A node with a single visible drop shadow whose y offset, blur and
spread are all zero while the x offset is 1. -/
def shadowCENode : Node := Node.mk { emptyData with
  id := some "6:1", name := some "Box", ntype := some "FRAME",
  effects := some [{ etype := some "DROP_SHADOW", visible := none,
                     offset := some ⟨some ⟨1, 1⟩, some ⟨0, 1⟩⟩,
                     radius := some ⟨0, 1⟩, spread := some ⟨0, 1⟩,
                     color := some ⟨⟨0, 1⟩, ⟨0, 1⟩, ⟨0, 1⟩, some ⟨1, 1⟩⟩ }] } []

/-- One invisible drop shadow, one non-shadow effect and one visible drop
shadow, used as the witness input of the shadow claim. -/
def shadowWitnessEffects : List Effect :=
  [{ etype := some "DROP_SHADOW", visible := some false,
     offset := some ⟨some ⟨9, 1⟩, some ⟨9, 1⟩⟩, radius := some ⟨9, 1⟩,
     spread := some ⟨9, 1⟩, color := some ⟨⟨1, 1⟩, ⟨0, 1⟩, ⟨0, 1⟩, some ⟨1, 1⟩⟩ },
   { etype := some "INNER_SHADOW", visible := none,
     offset := none, radius := some ⟨3, 1⟩, spread := none,
     color := some ⟨⟨0, 1⟩, ⟨0, 1⟩, ⟨0, 1⟩, some ⟨1, 1⟩⟩ },
   { etype := some "DROP_SHADOW", visible := none,
     offset := some ⟨some ⟨2, 1⟩, some ⟨4, 1⟩⟩, radius := some ⟨6, 1⟩,
     spread := none, color := some ⟨⟨0, 1⟩, ⟨0, 1⟩, ⟨0, 1⟩, some ⟨1, 2⟩⟩ }]

/-- The node data carrying the witness effects. -/
def shadowWitnessData : NodeData := { emptyData with
  id := some "6:2", name := some "Box2", ntype := some "FRAME",
  effects := some shadowWitnessEffects }

/-- The node data of the icon-claim witness: an INSTANCE referencing the
component c1. -/
def iconInstanceData : NodeData := { emptyData with
  id := some "i1", name := some "star",
  ntype := some "INSTANCE", componentId := some "c1" }

/-- The master component of the icon-claim inputs, named inside an Icons
frame. -/
def iconMaster : Node := Node.mk { emptyData with
  id := some "c1", name := some "star", ntype := some "COMPONENT" } []

/-- An Icons container frame holding the master component. -/
def iconFolder : Node := Node.mk { emptyData with
  id := some "ic", name := some "Icons", ntype := some "FRAME" } [iconMaster]

/-- An instance of the icon master component. -/
def iconInstance : Node := Node.mk { emptyData with
  id := some "i1", name := some "star", ntype := some "INSTANCE",
  componentId := some "c1" } []

/-- A document holding an icon library and an instance of one icon. -/
def iconDoc : Node := Node.mk { emptyData with
  id := some "doc", name := some "App", ntype := some "FRAME" }
  [iconFolder, iconInstance]

/-- A child frame with no style attributes at all: it is referenced by the
markup but its resolved rule is empty. -/
def c5Empty : Node := Node.mk { emptyData with
  id := some "5:2", name := some "Empty", ntype := some "FRAME" } []

/-- An icon instance with position: fixed: its class gets a stylesheet rule
but the markup renders an Icon element without a className. -/
def c5Star : Node := Node.mk { emptyData with
  id := some "5:3", name := some "star", ntype := some "INSTANCE",
  componentId := some "c1", isFixed := some true } []

/-- The converted frame of the class-correspondence counterexample. -/
def c5Card : Node := Node.mk { emptyData with
  id := some "5:1", name := some "Card", ntype := some "FRAME",
  layoutMode := some "VERTICAL" } [c5Empty, c5Star]

/-- The whole document of the class-correspondence counterexample: an icon
library beside the converted frame. -/
def c5Doc : Node := Node.mk { emptyData with
  id := some "5:0", name := some "App", ntype := some "FRAME" }
  [iconFolder, c5Card]


/-! Supporting lemmas. -/

theorem startsWithL_self_concat : ∀ (as bs : List Char), startsWithL as (as ++ bs) = true := by
  intro as
  induction as with
  | nil => intro bs; rfl
  | cons a as ih => intro bs; simp [startsWithL, ih]

theorem startsWithL_of_concat (pat : List Char) :
    ∀ (pre s : List Char), startsWithL pat pre = true → startsWithL pat (pre ++ s) = true := by
  induction pat with
  | nil => intro pre s _; rfl
  | cons a as ih =>
    intro pre s h
    cases pre with
    | nil => simp [startsWithL] at h
    | cons b bs =>
      simp [startsWithL] at h ⊢
      exact ⟨h.1, ih bs s h.2⟩

theorem startsWithL_concat_false (pat : List Char) :
    ∀ (pre s : List Char), mismatchWithin pat pre = true →
      startsWithL pat (pre ++ s) = false := by
  induction pat with
  | nil => intro pre s h; simp [mismatchWithin] at h
  | cons a as ih =>
    intro pre s h
    cases pre with
    | nil => simp [mismatchWithin] at h
    | cons b bs =>
      simp [mismatchWithin] at h
      rcases h with h | h
      · simp [startsWithL, h]
      · simp [startsWithL]
        intro he
        exact ih bs s h

theorem isDefaultProp_concat_false (pre s : String)
    (h : defaultVars.all (fun kv => mismatchWithin (kv.1 ++ ":").data pre.data) = true) :
    isDefaultProp (pre ++ s) = false := by
  unfold isDefaultProp
  rw [List.any_eq_false]
  intro kv hkv
  have hm := List.all_eq_true.mp h kv hkv
  have hs : strStartsWith (pre ++ s) (kv.1 ++ ":") = false := by
    unfold strStartsWith
    rw [String.data_append]
    exact startsWithL_concat_false _ _ _ hm
  simp [hs]

theorem isPosSizingDecl_concat (pre s k : String) (hk : k ∈ posSizingKeys)
    (h : strStartsWith pre k = true) : isPosSizingDecl (pre ++ s) = true := by
  have h2 : strStartsWith (pre ++ s) k = true := by
    unfold strStartsWith at h ⊢
    rw [String.data_append]
    exact startsWithL_of_concat _ _ _ h
  unfold isPosSizingDecl
  rw [List.any_eq_true]
  exact ⟨k, hk, h2⟩

theorem mem_filterDefaults {p : String} {l : List String}
    (h : p ∈ l) (hp : isDefaultProp p = false) : p ∈ filterDefaults l := by
  unfold filterDefaults
  rw [List.mem_filter]
  exact ⟨h, by simp [hp]⟩

theorem isDefaultProp_right (s : String) : isDefaultProp ("right: " ++ s) = false :=
  isDefaultProp_concat_false _ _ (by decide)

theorem isDefaultProp_left (s : String) : isDefaultProp ("left: " ++ s) = false :=
  isDefaultProp_concat_false _ _ (by decide)

theorem isDefaultProp_top (s : String) : isDefaultProp ("top: " ++ s) = false :=
  isDefaultProp_concat_false _ _ (by decide)

theorem isDefaultProp_bottom (s : String) : isDefaultProp ("bottom: " ++ s) = false :=
  isDefaultProp_concat_false _ _ (by decide)

theorem mk_data (t : String) : String.mk t.data = t := by
  obtain ⟨l⟩ := t
  rfl

theorem collapseRuns_mem (keep : Char → Bool) (rep : Char) :
    ∀ (l : List Char) (b : Bool) (c : Char), c ∈ collapseRuns keep rep b l →
      keep c = true ∨ c = rep := by
  intro l
  induction l with
  | nil => intro b c hc; simp [collapseRuns] at hc
  | cons a as ih =>
    intro b c hc
    simp only [collapseRuns] at hc
    split at hc
    · rcases List.mem_cons.mp hc with h | h
      · subst h; left; assumption
      · exact ih false c h
    · split at hc
      · exact ih true c hc
      · rcases List.mem_cons.mp hc with h | h
        · right; exact h
        · exact ih true c h

theorem collapseRuns_id (keep : Char → Bool) (rep : Char) :
    ∀ (l : List Char), (∀ c ∈ l, keep c = true) → collapseRuns keep rep false l = l := by
  intro l
  induction l with
  | nil => intro _; rfl
  | cons a as ih =>
    intro h
    have ha := h a (by simp)
    simp only [collapseRuns, if_pos ha]
    rw [ih (fun c hc => h c (List.mem_cons_of_mem _ hc))]

theorem sanitize_chars (s : String) : ∀ c ∈ (sanitize s).data, isSanitizeAllowed c = true := by
  intro c hc
  have hc2 : c ∈ collapseRuns isSanitizeAllowed '_' false (jsToLower s).data := hc
  rcases collapseRuns_mem _ _ _ _ _ hc2 with h | h
  · exact h
  · subst h; decide

theorem toLower_fixed (c : Char) (h : isSanitizeAllowed c = true) : Char.toLower c = c := by
  have hn : ¬(c.toNat ≥ 65 ∧ c.toNat ≤ 90) := by
    simp [isSanitizeAllowed] at h
    rcases h with ((⟨h1, h2⟩ | ⟨h1, h2⟩) | h) | h
    · omega
    · omega
    · subst h; decide
    · subst h; decide
  show (if c.toNat ≥ 65 ∧ c.toNat ≤ 90 then Char.ofNat (c.toNat + 32) else c) = c
  rw [if_neg hn]

theorem map_toLower_fixed (l : List Char) (h : ∀ c ∈ l, isSanitizeAllowed c = true) :
    l.map Char.toLower = l := by
  induction l with
  | nil => rfl
  | cons a as ih =>
    rw [List.map_cons, toLower_fixed a (h a (by simp)),
      ih (fun c hc => h c (List.mem_cons_of_mem _ hc))]

theorem jsToLower_fixed (s : String) (h : ∀ c ∈ s.data, isSanitizeAllowed c = true) :
    jsToLower s = s := by
  unfold jsToLower
  rw [map_toLower_fixed s.data h, mk_data]

theorem sanitize_idem (s : String) : sanitize (sanitize s) = sanitize s := by
  have h1 := sanitize_chars s
  show String.mk (collapseRuns isSanitizeAllowed '_' false (jsToLower (sanitize s)).data) =
    sanitize s
  rw [jsToLower_fixed _ h1, collapseRuns_id _ _ _ h1, mk_data]

theorem collapseRuns_false_cons (keep : Char → Bool) (rep a : Char) (as : List Char) :
    ∃ x xs, collapseRuns keep rep false (a :: as) = x :: xs := by
  simp only [collapseRuns]
  split
  · exact ⟨_, _, rfl⟩
  · exact ⟨_, _, rfl⟩

theorem sanitize_ne_empty (s : String) (h : ¬ s = "") : ¬ sanitize s = "" := by
  obtain ⟨l⟩ := s
  cases l with
  | nil => exact absurd rfl h
  | cons a as =>
    intro he
    have hd : collapseRuns isSanitizeAllowed '_' false
        (Char.toLower a :: as.map Char.toLower) = [] := congrArg String.data he
    obtain ⟨x, xs, hx⟩ := collapseRuns_false_cons isSanitizeAllowed '_'
      (Char.toLower a) (as.map Char.toLower)
    rw [hx] at hd
    cases hd

theorem digitChar_ne_dot (n : Nat) : Nat.digitChar n ≠ '.' := by
  unfold Nat.digitChar
  rcases n with _|_|_|_|_|_|_|_|_|_|_|_|_|_|_|_|n <;> first
    | decide
    | ((iterate 16 rw [if_neg (by omega)]); decide)

theorem toDigitsCore_ne_dot (b : Nat) :
    ∀ (fuel n : Nat) (ds : List Char), (∀ c ∈ ds, c ≠ '.') →
      ∀ c ∈ Nat.toDigitsCore b fuel n ds, c ≠ '.' := by
  intro fuel
  induction fuel with
  | zero =>
    intro n ds hds c hc
    simp only [Nat.toDigitsCore] at hc
    exact hds c hc
  | succ f ih =>
    intro n ds hds c hc
    simp only [Nat.toDigitsCore] at hc
    split at hc
    · rcases List.mem_cons.mp hc with h | h
      · exact h ▸ digitChar_ne_dot _
      · exact hds c h
    · refine ih _ _ ?_ c hc
      intro x hx
      rcases List.mem_cons.mp hx with h | h
      · exact h ▸ digitChar_ne_dot _
      · exact hds x h

theorem natRepr_ne_dot (n : Nat) : ∀ c ∈ (Nat.repr n).data, c ≠ '.' := by
  intro c hc
  exact toDigitsCore_ne_dot 10 (n + 1) n [] (by intro x hx; cases hx) c hc

theorem intRepr_ne_dot (i : Int) : ∀ c ∈ (Int.repr i).data, c ≠ '.' := by
  intro c hc
  cases i with
  | ofNat m => exact natRepr_ne_dot m c hc
  | negSucc m =>
    rw [Int.repr] at hc
    rw [String.data_append] at hc
    rcases List.mem_append.mp hc with h | h
    · have hce : c = '-' := by simpa using h
      subst hce
      decide
    · exact natRepr_ne_dot (m + 1) c h

end FigmaMarkup

open FigmaMarkup

/-- C1: for Scenario A (root FRAME "Card" with layoutMode VERTICAL and
itemSpacing 8 containing one TEXT child "Title" with characters "Hi" and a
literal opaque black fill), the conversion returns markup that is a
container with class card wrapping a text leaf with class card_title
containing "Hi", and a stylesheet whose .card rule carries
display: flex; flex-direction: column; gap: 8px; and the nested rule
of selector &_title with body color: #000000;. -/
theorem claim_C1_scenarioA :
    (convertFigmaToMarkup scenarioACard none scenarioACard []).1 =
      "<div className=\x7bstyles.card\x7d>\n  <span className=\x7bstyles.card_title\x7d>Hi</span>\n</div>" ∧
    strContains (convertFigmaToMarkup scenarioACard none scenarioACard []).2
      "display: flex; flex-direction: column; gap: 8px;" = true ∧
    strContains (convertFigmaToMarkup scenarioACard none scenarioACard []).2
      "&_title \x7bcolor: #000000;\x7d" = true ∧
    (convertFigmaToMarkup scenarioACard none scenarioACard []).2 =
      ".card \x7bdisplay: flex; flex-direction: column; gap: 8px;\n  &_title \x7bcolor: #000000;\x7d\n\x7d" := by
  refine ⟨by decide, by decide, by decide, by decide⟩

/-- C8: the conversion is a deterministic pure function of the document,
the target node, the root-class override and the identifier map: two runs
on equal inputs give byte-identical markup and stylesheet strings. -/
theorem claim_C8_determinism (figmaNode : Node) (rco : Option String) (doc : Node)
    (vmap : VMap) (r1 r2 : String × String)
    (h1 : r1 = convertFigmaToMarkup figmaNode rco doc vmap)
    (h2 : r2 = convertFigmaToMarkup figmaNode rco doc vmap) : r1 = r2 :=
  h1.trans h2.symm

/-- Witness for C8 at the Scenario A input. -/
theorem claim_C8_determinism_witness :
    convertFigmaToMarkup scenarioACard none scenarioACard [] =
      convertFigmaToMarkup scenarioACard none scenarioACard [] :=
  claim_C8_determinism scenarioACard none scenarioACard [] _ _ rfl rfl

/-- Counterexample to C4 as stated: sanitize does not strip a trailing
separator ("Icon!" keeps its trailing underscore), does not collapse
repeated separators ("a__b" is unchanged), and does not strip a leading
separator ("_a_" is unchanged). -/
theorem claim_C4_counterexample :
    sanitize "Icon!" = "icon_" ∧
    (sanitize "Icon!").data.getLast? = some '_' ∧
    sanitize "a__b" = "a__b" ∧
    sanitize "_a_" = "_a_" := by
  refine ⟨by decide, by decide, by decide, by decide⟩

/-- Counterexample to C6 as stated: a shadow with x offset 1 and zero y
offset, blur and spread renders as 1px 0px 0px color, keeping two of its
three zero tokens, because the JS .replace(' 0px', '') removes only the
first occurrence; the claim requires every zero token to be omitted. -/
theorem claim_C6_counterexample :
    resolverDecls [] shadowCENode none none = ["box-shadow: 1px 0px 0px #000000;"] ∧
    strContains "box-shadow: 1px 0px 0px #000000;" " 0px" = true := by
  refine ⟨by decide, by decide⟩

/-- Counterexample to C7 as stated: a fill with opacity 0.5 and color
r 1, g 0, b 0 resolves to rgba(255, 0, 0, 0.500) - toFixed(3) always
renders three decimals - not to the claimed rgba(255, 0, 0, 0.50). -/
theorem claim_C7_counterexample :
    colorToCss ⟨⟨1, 1⟩, ⟨0, 1⟩, ⟨0, 1⟩, none⟩ (some ⟨1, 2⟩) = "rgba(255, 0, 0, 0.500)" ∧
    ¬ colorToCss ⟨⟨1, 1⟩, ⟨0, 1⟩, ⟨0, 1⟩, none⟩ (some ⟨1, 2⟩) = "rgba(255, 0, 0, 0.50)" := by
  refine ⟨by decide, by decide⟩

/-- Counterexample to C5 as stated: converting c5Card inside c5Doc, the
markup references class card_empty (a child with no style attributes) but
the stylesheet contains no rule for it, neither literally nor as a nested
&_empty selector; conversely the stylesheet contains a rule for the nested
selector &_star (the fixed-position icon instance) while the markup never
references that class - the instance renders as an Icon element without a
className. -/
theorem claim_C5_counterexample :
    strContains (convertFigmaToMarkup c5Card none c5Doc []).1 "styles.card_empty" = true ∧
    strContains (convertFigmaToMarkup c5Card none c5Doc []).2 "card_empty" = false ∧
    strContains (convertFigmaToMarkup c5Card none c5Doc []).2 "&_empty" = false ∧
    strContains (convertFigmaToMarkup c5Card none c5Doc []).2 "&_star" = true ∧
    strContains (convertFigmaToMarkup c5Card none c5Doc []).1 "card_star" = false ∧
    strContains (convertFigmaToMarkup c5Card none c5Doc []).1 "<Icon name=\"star\" />" = true := by
  refine ⟨by decide, by decide, by decide, by decide, by decide, by decide⟩

theorem strStartsWith_concat_left (pre s pat : String) (h : strStartsWith pre pat = true) :
    strStartsWith (pre ++ s) pat = true := by
  unfold strStartsWith at h ⊢
  rw [String.data_append]
  exact startsWithL_of_concat _ _ _ h

theorem strStartsWith_concat_mismatch (pre s pat : String)
    (h : mismatchWithin pat.data pre.data = true) :
    strStartsWith (pre ++ s) pat = false := by
  unfold strStartsWith
  rw [String.data_append]
  exact startsWithL_concat_false _ _ _ h

/-- C4 (amended): sanitize lowercases and collapses every run of characters
outside [a-z0-9_-] to a single underscore; consequently every character of
the result is in [a-z0-9_-] and sanitization is idempotent.  Separators the
input already contains are preserved verbatim: repeated separators are not
collapsed and leading or trailing separators are not stripped. -/
theorem claim_C4_sanitize_amended (s : String) :
    (∀ c ∈ (sanitize s).data, isSanitizeAllowed c = true) ∧
    sanitize (sanitize s) = sanitize s ∧
    sanitize "a__b" = "a__b" ∧ sanitize "_a_" = "_a_" :=
  ⟨sanitize_chars s, sanitize_idem s, by decide, by decide⟩

/-- Witness for the amended C4 at the input "Icon!". -/
theorem claim_C4_sanitize_amended_witness :
    isSanitizeAllowed 'i' = true ∧ sanitize (sanitize "Icon!") = sanitize "Icon!" :=
  ⟨(claim_C4_sanitize_amended "Icon!").1 'i' (by decide),
   (claim_C4_sanitize_amended "Icon!").2.1⟩

/-- C7 (amended): any fill opacity strictly below 1 makes the literal color
resolve to an rgba() value and never to a hex value; the Scenario D fill
gives rgba(255, 0, 0, 0.500) (three decimals, as toFixed(3) renders);
integer values render as plain integers without a decimal point and
non-integer values render with exactly three decimal digits. -/
theorem claim_C7_opacity_amended :
    (∀ (c : JsColor) (a : Q), qLt a qOne = true →
      strStartsWith (colorToCss c (some a)) "rgba(" = true ∧
      strStartsWith (colorToCss c (some a)) "#" = false) ∧
    colorToCss ⟨⟨1, 1⟩, ⟨0, 1⟩, ⟨0, 1⟩, none⟩ (some ⟨1, 2⟩) = "rgba(255, 0, 0, 0.500)" ∧
    (∀ q : Q, qIsInt q = true →
      formatNum q = toString (qIntVal q) ∧ ∀ c ∈ (formatNum q).data, c ≠ '.') ∧
    (∀ q : Q, qIsInt q = false →
      ∃ pre tl, formatNum q = pre ++ "." ++ tl ∧ tl.length = 3 ∧
        (∀ c ∈ pre.data, c ≠ '.') ∧ (∀ c ∈ tl.data, c ≠ '.')) := by
  refine ⟨?_, by decide, ?_, ?_⟩
  · intro c a h
    constructor
    · unfold colorToCss
      simp only [Option.getD_some]
      rw [if_pos h]
      simp only [String.append_assoc]
      exact strStartsWith_concat_left _ _ _ (by decide)
    · unfold colorToCss
      simp only [Option.getD_some]
      rw [if_pos h]
      simp only [String.append_assoc]
      exact strStartsWith_concat_mismatch _ _ _ (by decide)
  · intro q h
    constructor
    · simp [formatNum, h]
    · intro c hc
      rw [formatNum, if_pos h] at hc
      exact intRepr_ne_dot _ c hc
  · intro q h
    rw [formatNum, if_neg (by simp [h])]
    refine ⟨(if qNeg q then "-" else "") ++
        toString ((q.num.natAbs * 2000 + q.den.natAbs) / (2 * q.den.natAbs) / 1000),
      pad3digits ((q.num.natAbs * 2000 + q.den.natAbs) / (2 * q.den.natAbs) % 1000),
      rfl, rfl, ?_, ?_⟩
    · intro c hc
      rw [String.data_append] at hc
      rcases List.mem_append.mp hc with h1 | h1
      · by_cases hqn : qNeg q = true
        · rw [if_pos hqn] at h1
          have : c = '-' := by simpa using h1
          subst this
          decide
        · rw [if_neg hqn] at h1
          simp at h1
      · exact natRepr_ne_dot _ c h1
    · intro c hc
      have hd : (pad3digits ((q.num.natAbs * 2000 + q.den.natAbs) / (2 * q.den.natAbs) % 1000)).data =
          [Nat.digitChar ((q.num.natAbs * 2000 + q.den.natAbs) / (2 * q.den.natAbs) % 1000 / 100 % 10),
           Nat.digitChar ((q.num.natAbs * 2000 + q.den.natAbs) / (2 * q.den.natAbs) % 1000 / 10 % 10),
           Nat.digitChar ((q.num.natAbs * 2000 + q.den.natAbs) / (2 * q.den.natAbs) % 1000 % 10)] := rfl
      rw [hd] at hc
      simp only [List.mem_cons] at hc
      rcases hc with h1 | h1 | h1 | h1
      · exact h1 ▸ digitChar_ne_dot _
      · exact h1 ▸ digitChar_ne_dot _
      · exact h1 ▸ digitChar_ne_dot _
      · simp at h1

/-- Witness for the amended C7: an opacity of 3/4 yields an rgba value and
the integer 7 renders bare. -/
theorem claim_C7_opacity_amended_witness :
    strStartsWith (colorToCss ⟨⟨0, 1⟩, ⟨1, 1⟩, ⟨0, 1⟩, none⟩ (some ⟨3, 4⟩)) "rgba(" = true ∧
    strStartsWith (colorToCss ⟨⟨0, 1⟩, ⟨1, 1⟩, ⟨0, 1⟩, none⟩ (some ⟨3, 4⟩)) "#" = false ∧
    formatNum ⟨7, 1⟩ = toString (qIntVal ⟨7, 1⟩) :=
  ⟨(claim_C7_opacity_amended.1 _ _ (by decide)).1,
   (claim_C7_opacity_amended.1 _ _ (by decide)).2,
   (claim_C7_opacity_amended.2.2.1 ⟨7, 1⟩ (by decide)).1⟩

theorem getLayoutSizingProps_bare (n : Node) (pm : Option String)
    (h1 : n.data.layoutSizingHorizontal = none) (h2 : n.data.layoutSizingVertical = none) :
    getLayoutSizingProps n pm = [] := by
  unfold getLayoutSizingProps
  rw [h1, h2]
  rcases pm with _ | s
  · simp
  · (repeat' split) <;> simp_all

/-- C9: the conversion engine is a total function: every input yields a
(markup, stylesheet) pair (the embedding is a total Lean function, so no
input can raise), and a node carrying none of the optional style
attributes produces an empty declaration list - missing data yields
missing declarations, never an error and never a default guess. -/
theorem claim_C9_total_silent (vmap : VMap) (i nm t : Option String) (cs : List Node)
    (pm : Option String) (pn : Option Node) (figmaNode doc : Node) (rco : Option String) :
    resolverDecls vmap (Node.mk { emptyData with id := i, name := nm, ntype := t } cs) pm pn = [] ∧
    convertFigmaToMarkup figmaNode rco doc vmap =
      ((convertFigmaToMarkup figmaNode rco doc vmap).1,
       (convertFigmaToMarkup figmaNode rco doc vmap).2) := by
  constructor
  · have hsz := getLayoutSizingProps_bare
      (Node.mk { emptyData with id := i, name := nm, ntype := t } cs) pm rfl rfl
    unfold resolverDecls
    split
    · rw [hsz]
      simp [positionProps, emptyData, Node.data]
    · unfold fullProps
      rw [hsz]
      simp [positionProps, textProps, bgProps, opacityProps, radiusProps, borderProps,
        shadowProps, overflowProps, flexProps, maxSizeProps, aimRatioProps, filterDefaults,
        emptyData, Node.data, firstFillHidden, resolveVar, bvFirstId, bvArrFirstId,
        truthyOpt, firstFillColorDecl, shadowVarIdOf]
  · rfl

theorem isFixed_beq_false {o : Option Bool} (h : ¬ o = some true) : (o == some true) = false := by
  rcases o with _ | b
  · rfl
  · rcases b
    · rfl
    · exact absurd rfl h

theorem positionProps_head_fixed (n : Node) (pn : Option Node)
    (h : n.data.isFixed = some true) :
    ∃ rest, positionProps n pn = "position: fixed;" :: rest := by
  unfold positionProps
  rw [h]
  exact ⟨_, rfl⟩

theorem positionProps_head_abs (n : Node) (pn : Option Node)
    (h1 : ¬ n.data.isFixed = some true) (h2 : n.data.layoutPositioning = some "ABSOLUTE") :
    ∃ rest, positionProps n pn = "position: absolute;" :: rest := by
  unfold positionProps
  rw [h2, isFixed_beq_false h1]
  exact ⟨_, rfl⟩

theorem positionProps_offsets (n : Node) (box : BBox) (p : Node) (pbox : BBox)
    (hcond : n.data.isFixed = some true ∨ n.data.layoutPositioning = some "ABSOLUTE")
    (hbox : n.data.absoluteBoundingBox = some box)
    (hpbox : p.data.absoluteBoundingBox = some pbox) :
    ∀ d ∈ getPositionProps box pbox (n.data.constraints.getD ⟨none, none⟩),
      d ∈ positionProps n (some p) := by
  intro d hd
  have hc : (n.data.isFixed == some true || n.data.layoutPositioning == some "ABSOLUTE") = true := by
    rcases hcond with h | h <;> simp [h]
  unfold positionProps
  simp only [hbox, hpbox, hc, if_true, List.mem_append]
  tauto

theorem getPositionProps_mem_right (box pbox : BBox) (cons : Constraints)
    (h : cons.horizontal = some "RIGHT") :
    ("right: " ++ formatNum (qSub (qAdd pbox.x pbox.width) (qAdd box.x box.width)) ++ "px;")
      ∈ getPositionProps box pbox cons := by
  unfold getPositionProps
  rw [h]
  exact List.mem_cons_self _ _

theorem getPositionProps_mem_hcenter (box pbox : BBox) (cons : Constraints)
    (h : cons.horizontal = some "CENTER") :
    ("left: " ++ formatNum (qDiv (qSub pbox.width box.width) qTwo) ++ "px;")
      ∈ getPositionProps box pbox cons := by
  unfold getPositionProps
  rw [h]
  exact List.mem_cons_self _ _

theorem getPositionProps_mem_hdefault (box pbox : BBox) (cons : Constraints)
    (h1 : ¬ cons.horizontal = some "RIGHT") (h2 : ¬ cons.horizontal = some "CENTER") :
    ("left: " ++ formatNum (qSub box.x pbox.x) ++ "px;") ∈ getPositionProps box pbox cons := by
  unfold getPositionProps
  simp only [List.mem_cons, List.not_mem_nil, or_false]
  rcases hH : cons.horizontal with _ | s
  · left; rfl
  · left
    split
    · simp_all
    · simp_all
    · rfl
    · rfl

theorem getPositionProps_mem_bottom (box pbox : BBox) (cons : Constraints)
    (h : cons.vertical = some "BOTTOM") :
    ("bottom: " ++ formatNum (qSub (qAdd pbox.y pbox.height) (qAdd box.y box.height)) ++ "px;")
      ∈ getPositionProps box pbox cons := by
  unfold getPositionProps
  rw [h]
  exact List.mem_cons_of_mem _ (List.mem_cons_self _ _)

theorem getPositionProps_mem_vcenter (box pbox : BBox) (cons : Constraints)
    (h : cons.vertical = some "CENTER") :
    ("top: " ++ formatNum (qDiv (qSub pbox.height box.height) qTwo) ++ "px;")
      ∈ getPositionProps box pbox cons := by
  unfold getPositionProps
  rw [h]
  exact List.mem_cons_of_mem _ (List.mem_cons_self _ _)

theorem getPositionProps_mem_vdefault (box pbox : BBox) (cons : Constraints)
    (h1 : ¬ cons.vertical = some "BOTTOM") (h2 : ¬ cons.vertical = some "CENTER") :
    ("top: " ++ formatNum (qSub box.y pbox.y) ++ "px;") ∈ getPositionProps box pbox cons := by
  unfold getPositionProps
  simp only [List.mem_cons, List.not_mem_nil, or_false]
  rcases hV : cons.vertical with _ | s
  · right; rfl
  · right
    split
    · simp_all
    · simp_all
    · rfl
    · rfl

theorem mem_resolverDecls_of_positionProps (vmap : VMap) (n : Node) (pm : Option String)
    (pn : Option Node) (d : String) (hd : d ∈ positionProps n pn)
    (hdef : isDefaultProp d = false) : d ∈ resolverDecls vmap n pm pn := by
  unfold resolverDecls
  split
  · exact List.mem_append_left _ hd
  · refine mem_filterDefaults ?_ hdef
    unfold fullProps
    simp only [List.mem_append]
    tauto

/-- C2: a node with isFixed true gets position: fixed, otherwise a node
with layoutPositioning ABSOLUTE gets position: absolute; and whenever
either holds and both the node's and the parent's bounding boxes are
present, the emitted offsets follow the constraints exactly as claimed:
horizontal RIGHT gives right = parent.x + parent.width - (node.x +
node.width), CENTER gives left = (parent.width - node.width) / 2, SCALE or
LEFT or a missing constraint gives left = node.x - parent.x, and
vertically the symmetric rule with BOTTOM / CENTER / SCALE / TOP. -/
theorem claim_C2_positioning (vmap : VMap) (n : Node) (pm : Option String) (pn : Option Node) :
    (n.data.isFixed = some true → "position: fixed;" ∈ resolverDecls vmap n pm pn) ∧
    (¬ n.data.isFixed = some true → n.data.layoutPositioning = some "ABSOLUTE" →
      "position: absolute;" ∈ resolverDecls vmap n pm pn) ∧
    ((n.data.isFixed = some true ∨ n.data.layoutPositioning = some "ABSOLUTE") →
      ∀ (box : BBox) (p : Node) (pbox : BBox),
        n.data.absoluteBoundingBox = some box → pn = some p →
        p.data.absoluteBoundingBox = some pbox →
        (((n.data.constraints.getD ⟨none, none⟩).horizontal = some "RIGHT" →
            ("right: " ++ formatNum (qSub (qAdd pbox.x pbox.width) (qAdd box.x box.width)) ++ "px;")
              ∈ resolverDecls vmap n pm pn) ∧
         ((n.data.constraints.getD ⟨none, none⟩).horizontal = some "CENTER" →
            ("left: " ++ formatNum (qDiv (qSub pbox.width box.width) qTwo) ++ "px;")
              ∈ resolverDecls vmap n pm pn) ∧
         (¬ (n.data.constraints.getD ⟨none, none⟩).horizontal = some "RIGHT" →
          ¬ (n.data.constraints.getD ⟨none, none⟩).horizontal = some "CENTER" →
            ("left: " ++ formatNum (qSub box.x pbox.x) ++ "px;")
              ∈ resolverDecls vmap n pm pn) ∧
         ((n.data.constraints.getD ⟨none, none⟩).vertical = some "BOTTOM" →
            ("bottom: " ++ formatNum (qSub (qAdd pbox.y pbox.height) (qAdd box.y box.height)) ++ "px;")
              ∈ resolverDecls vmap n pm pn) ∧
         ((n.data.constraints.getD ⟨none, none⟩).vertical = some "CENTER" →
            ("top: " ++ formatNum (qDiv (qSub pbox.height box.height) qTwo) ++ "px;")
              ∈ resolverDecls vmap n pm pn) ∧
         (¬ (n.data.constraints.getD ⟨none, none⟩).vertical = some "BOTTOM" →
          ¬ (n.data.constraints.getD ⟨none, none⟩).vertical = some "CENTER" →
            ("top: " ++ formatNum (qSub box.y pbox.y) ++ "px;")
              ∈ resolverDecls vmap n pm pn))) := by
  refine ⟨?_, ?_, ?_⟩
  · intro h
    obtain ⟨rest, hr⟩ := positionProps_head_fixed n pn h
    refine mem_resolverDecls_of_positionProps vmap n pm pn _ ?_ (by decide)
    rw [hr]
    exact List.mem_cons_self _ _
  · intro h1 h2
    obtain ⟨rest, hr⟩ := positionProps_head_abs n pn h1 h2
    refine mem_resolverDecls_of_positionProps vmap n pm pn _ ?_ (by decide)
    rw [hr]
    exact List.mem_cons_self _ _
  · rintro hcond box p pbox hbox rfl hpbox
    refine ⟨?_, ?_, ?_, ?_, ?_, ?_⟩
    · intro hH
      refine mem_resolverDecls_of_positionProps vmap n pm _ _
        (positionProps_offsets n box p pbox hcond hbox hpbox _
          (getPositionProps_mem_right box pbox _ hH)) ?_
      rw [String.append_assoc]
      exact isDefaultProp_right _
    · intro hH
      refine mem_resolverDecls_of_positionProps vmap n pm _ _
        (positionProps_offsets n box p pbox hcond hbox hpbox _
          (getPositionProps_mem_hcenter box pbox _ hH)) ?_
      rw [String.append_assoc]
      exact isDefaultProp_left _
    · intro hH1 hH2
      refine mem_resolverDecls_of_positionProps vmap n pm _ _
        (positionProps_offsets n box p pbox hcond hbox hpbox _
          (getPositionProps_mem_hdefault box pbox _ hH1 hH2)) ?_
      rw [String.append_assoc]
      exact isDefaultProp_left _
    · intro hV
      refine mem_resolverDecls_of_positionProps vmap n pm _ _
        (positionProps_offsets n box p pbox hcond hbox hpbox _
          (getPositionProps_mem_bottom box pbox _ hV)) ?_
      rw [String.append_assoc]
      exact isDefaultProp_bottom _
    · intro hV
      refine mem_resolverDecls_of_positionProps vmap n pm _ _
        (positionProps_offsets n box p pbox hcond hbox hpbox _
          (getPositionProps_mem_vcenter box pbox _ hV)) ?_
      rw [String.append_assoc]
      exact isDefaultProp_top _
    · intro hV1 hV2
      refine mem_resolverDecls_of_positionProps vmap n pm _ _
        (positionProps_offsets n box p pbox hcond hbox hpbox _
          (getPositionProps_mem_vdefault box pbox _ hV1 hV2)) ?_
      rw [String.append_assoc]
      exact isDefaultProp_top _

/-- Witness for C2 at the Scenario B geometry: the emitted declarations
include position: fixed; right: 10px; bottom: 10px;. -/
theorem claim_C2_positioning_witness :
    "position: fixed;" ∈ resolverDecls [] scenarioBNode none (some scenarioBParent) ∧
    "right: 10px;" ∈ resolverDecls [] scenarioBNode none (some scenarioBParent) ∧
    "bottom: 10px;" ∈ resolverDecls [] scenarioBNode none (some scenarioBParent) := by
  have h := claim_C2_positioning [] scenarioBNode none (some scenarioBParent)
  refine ⟨h.1 rfl, ?_, ?_⟩
  · have h2 := (h.2.2 (Or.inl rfl) _ scenarioBParent _ rfl rfl rfl).1 rfl
    exact (by decide : ("right: " ++
        formatNum (qSub (qAdd (⟨0, 1⟩ : Q) ⟨100, 1⟩) (qAdd (⟨40, 1⟩ : Q) ⟨50, 1⟩)) ++ "px;") =
        "right: 10px;") ▸ h2
  · have h2 := (h.2.2 (Or.inl rfl) _ scenarioBParent _ rfl rfl rfl).2.2.2.1 rfl
    exact (by decide : ("bottom: " ++
        formatNum (qSub (qAdd (⟨0, 1⟩ : Q) ⟨100, 1⟩) (qAdd (⟨40, 1⟩ : Q) ⟨50, 1⟩)) ++ "px;") =
        "bottom: 10px;") ▸ h2

theorem widthFixedDecl_posSizing (n : Node) :
    ∀ d ∈ widthFixedDecl n, isPosSizingDecl d = true := by
  intro d hd
  unfold widthFixedDecl at hd
  split at hd
  · next bb heq =>
    have he : d = "width: " ++ formatNum bb.width ++ "px;" := by simpa using hd
    subst he
    rw [String.append_assoc]
    exact isPosSizingDecl_concat _ _ "width:" (by decide) (by decide)
  · simp at hd

theorem heightFixedDecl_posSizing (n : Node) :
    ∀ d ∈ heightFixedDecl n, isPosSizingDecl d = true := by
  intro d hd
  unfold heightFixedDecl at hd
  split at hd
  · next bb heq =>
    have he : d = "height: " ++ formatNum bb.height ++ "px;" := by simpa using hd
    subst he
    rw [String.append_assoc]
    exact isPosSizingDecl_concat _ _ "height:" (by decide) (by decide)
  · simp at hd

theorem getLayoutSizingProps_posSizing (n : Node) (pm : Option String) :
    ∀ d ∈ getLayoutSizingProps n pm, isPosSizingDecl d = true := by
  intro d hd
  unfold getLayoutSizingProps at hd
  split at hd <;>
    rcases List.mem_append.mp hd with h | h <;>
      (repeat' split at h) <;>
      first
        | exact widthFixedDecl_posSizing n d h
        | exact heightFixedDecl_posSizing n d h
        | (have he : d = "flex-grow: 1; flex-shrink: 1;" := by simpa using h
           subst he; decide)
        | (have he : d = "align-self: stretch;" := by simpa using h
           subst he; decide)
        | simp at h

theorem getPositionProps_posSizing (box pbox : BBox) (cons : Constraints) :
    ∀ d ∈ getPositionProps box pbox cons, isPosSizingDecl d = true := by
  intro d hd
  unfold getPositionProps at hd
  simp only [List.mem_cons, List.not_mem_nil, or_false] at hd
  rcases hd with h | h
  · split at h <;> subst h <;> rw [String.append_assoc]
    · exact isPosSizingDecl_concat _ _ "right:" (by decide) (by decide)
    · exact isPosSizingDecl_concat _ _ "left:" (by decide) (by decide)
    · exact isPosSizingDecl_concat _ _ "left:" (by decide) (by decide)
    · exact isPosSizingDecl_concat _ _ "left:" (by decide) (by decide)
  · split at h <;> subst h <;> rw [String.append_assoc]
    · exact isPosSizingDecl_concat _ _ "bottom:" (by decide) (by decide)
    · exact isPosSizingDecl_concat _ _ "top:" (by decide) (by decide)
    · exact isPosSizingDecl_concat _ _ "top:" (by decide) (by decide)
    · exact isPosSizingDecl_concat _ _ "top:" (by decide) (by decide)

theorem positionProps_posSizing (n : Node) (pn : Option Node) :
    ∀ d ∈ positionProps n pn, isPosSizingDecl d = true := by
  intro d hd
  unfold positionProps at hd
  rcases List.mem_append.mp hd with h | h
  · split at h
    · have he : d = "position: fixed;" := by simpa using h
      subst he; decide
    · split at h
      · have he : d = "position: absolute;" := by simpa using h
        subst he; decide
      · simp at h
  · split at h
    · split at h
      · split at h
        · exact getPositionProps_posSizing _ _ _ d h
        · simp at h
      · simp at h
    · simp at h

/-- C3: every non-root INSTANCE node is terminal for styling - its resolved
declaration list contains only positioning (position, left, right, top,
bottom) and layout-sizing (width, height, flex-grow, flex-shrink,
align-self) declarations; and Scenario C - an INSTANCE child named
Component Name with componentProperties Active#123 valued "True" - renders
as a self-closing ComponentName element whose active prop is the literal
boolean true, with no stylesheet rule body for its class. -/
theorem claim_C3_instances :
    (∀ (vmap : VMap) (n : Node) (pm : Option String) (pn : Option Node),
       n.data.ntype = some "INSTANCE" →
       ∀ d ∈ resolverDecls vmap n pm pn, isPosSizingDecl d = true) ∧
    (convertFigmaToMarkup scenarioCCard none scenarioCCard []).1 =
      "<div className=\x7bstyles.card\x7d>\n  <ComponentName className=\x7bstyles.card_component_name\x7d active=\x7btrue\x7d />\n</div>" ∧
    (convertFigmaToMarkup scenarioCCard none scenarioCCard []).2 = ".card \x7b\x7d" := by
  refine ⟨?_, by decide, by decide⟩
  intro vmap n pm pn ht d hd
  unfold resolverDecls at hd
  rw [if_pos (by simp [ht])] at hd
  rcases List.mem_append.mp hd with h | h
  · exact positionProps_posSizing n pn d h
  · exact getLayoutSizingProps_posSizing n pm d h

/-- Witness for C3: the fixed-position instance node resolves to the single
declaration position: fixed;, which is a positioning declaration. -/
theorem claim_C3_instances_witness : isPosSizingDecl "position: fixed;" = true :=
  claim_C3_instances.1 [] fixedInstanceNode none none rfl "position: fixed;" (by decide)

/-- C10: a non-root INSTANCE node whose master component - looked up by
componentId in the whole-document id index - passes the icon walk (some
node on its parent chain, itself included, has a lowercased name containing
"icons" or "icon_sprite") renders as a self-closing Icon element carrying
the sanitized node name, instead of a Pascal-cased component element with
className and componentProperties props. -/
theorem claim_C10_icon_instance (ctx : Ctx) (d : NodeData) (cs : List Node)
    (indent : Nat) (rcn : Option String) (cm : CMap) (master : Node)
    (ht : d.ntype = some "INSTANCE")
    (hm : findMasterComponent ctx.idMap (Node.mk d cs) = some master)
    (hi : isIconComponent ctx.parentMap master = true) :
    (nodeToJsx ctx (Node.mk d cs) indent false rcn cm).1 =
      strRepeat "  " indent ++ "<Icon name=\"" ++ sanitize (jsStringOf d.name) ++ "\" />" := by
  simp [nodeToJsx, ht, hm, hi, sanitizeName, Node.data, String.append_assoc]

/-- Witness for C10: the star instance of iconDoc renders as an Icon
element. -/
theorem claim_C10_icon_instance_witness :
    (nodeToJsx (ctxOf iconDoc [] "app") (Node.mk iconInstanceData []) 1 false none []).1 =
      "  <Icon name=\"star\" />" := by
  rw [claim_C10_icon_instance (ctxOf iconDoc [] "app") iconInstanceData [] 1 none []
    iconMaster rfl rfl (by decide)]
  decide

/-- C6 (amended): only DROP_SHADOW effects whose visible flag is not false
contribute to the box-shadow declaration (removing the other effects from
the node changes nothing); a resolvable variable-bound shadow color is used
for every shadow entry of the node regardless of the entry's own literal
color; and each entry renders the template x y blur spread color with only
the FIRST occurrence of the zero token " 0px" removed - JS
.replace(' 0px', '') with a string pattern replaces once, so further zero
tokens stay in the rendered string. -/
theorem claim_C6_shadows_amended :
    (∀ (vmap : VMap) (d : NodeData) (cs : List Node) (effs : List Effect),
      d.effects = some effs →
      shadowProps vmap (Node.mk d cs) =
        shadowProps vmap
          (Node.mk { d with effects := some (effs.filter isVisibleDropShadow) } cs)) ∧
    (∀ (vmap : VMap) (i v : String) (e : Effect),
      getScssVarById vmap i = some v → shadowColorOf vmap (some i) e = some v) ∧
    (∀ (vmap : VMap) (svid : Option String) (e : Effect),
      shadowRender vmap svid e = jsReplaceFirst (shadowTemplate vmap svid e) " 0px") := by
  refine ⟨?_, ?_, fun _ _ _ => rfl⟩
  · intro vmap d cs effs h
    unfold shadowProps
    simp only [Node.data, h]
    rw [List.filter_filter]
    simp [Bool.and_self]
  · intro vmap i v e h
    unfold shadowColorOf
    simp [h]

/-- Witness for the amended C6: dropping the invisible shadow and the
non-shadow effect of the witness node leaves its box-shadow unchanged. -/
theorem claim_C6_shadows_amended_witness :
    shadowProps [] (Node.mk shadowWitnessData []) =
      shadowProps []
        (Node.mk { shadowWitnessData with
          effects := some (shadowWitnessEffects.filter isVisibleDropShadow) } []) :=
  claim_C6_shadows_amended.1 [] shadowWitnessData [] shadowWitnessEffects rfl

theorem cmKeys_register_sub (cm : CMap) (k : String) (n : Node) :
    ∀ x ∈ cmKeys cm, x ∈ cmKeys (cmRegister cm k n) := by
  intro x hx
  unfold cmRegister
  split
  · exact hx
  · unfold cmKeys at hx ⊢
    rw [List.map_append]
    exact List.mem_append_left _ hx

theorem cmKeys_register_self (cm : CMap) (k : String) (n : Node) :
    k ∈ cmKeys (cmRegister cm k n) := by
  unfold cmRegister
  split
  · next h =>
    rw [List.any_eq_true] at h
    obtain ⟨p, hp, he⟩ := h
    have hk : p.1 = k := by simpa using he
    exact hk ▸ List.mem_map_of_mem Prod.fst hp
  · unfold cmKeys
    rw [List.map_append]
    exact List.mem_append_right _ (by simp)

mutual
theorem nodeToJsx_keys_mono (ctx : Ctx) (node : Node) (indent : Nat) (isRoot : Bool)
    (rcn : Option String) (cm : CMap) :
    ∀ x ∈ cmKeys cm, x ∈ cmKeys (nodeToJsx ctx node indent isRoot rcn cm).2 := by
  match node with
  | .mk d cs =>
    intro x hx
    simp only [nodeToJsx]
    repeat' split
    all_goals first
      | exact cmKeys_register_sub _ _ _ x hx
      | exact cmKeys_register_sub _ _ _ x
          (nodeToJsxList_keys_mono ctx cs (indent + 1) rcn cm x hx)

theorem nodeToJsxList_keys_mono (ctx : Ctx) (ns : List Node) (ind : Nat)
    (rcn : Option String) (cm : CMap) :
    ∀ x ∈ cmKeys cm, x ∈ cmKeys (nodeToJsxList ctx ns ind rcn cm).2 := by
  match ns with
  | [] =>
    intro x hx
    simpa [nodeToJsxList] using hx
  | n :: rest =>
    intro x hx
    simp only [nodeToJsxList]
    exact nodeToJsxList_keys_mono ctx rest ind rcn _ x
      (nodeToJsx_keys_mono ctx n ind false rcn cm x hx)
end

mutual
theorem jsxRefClasses_sub (ctx : Ctx) (node : Node) (indent : Nat) (isRoot : Bool)
    (rcn : Option String) (cm : CMap) :
    ∀ c ∈ jsxRefClasses ctx node isRoot rcn,
      c ∈ cmKeys (nodeToJsx ctx node indent isRoot rcn cm).2 := by
  match node with
  | .mk d cs =>
    intro c hc
    simp only [jsxRefClasses] at hc
    simp only [nodeToJsx]
    by_cases hInst : (d.ntype == some "INSTANCE" && !isRoot) = true
    · rw [if_pos hInst] at hc ⊢
      by_cases hIcon : (match findMasterComponent ctx.idMap (Node.mk d cs) with
          | some master => isIconComponent ctx.parentMap master
          | none => false) = true
      · rw [if_pos hIcon] at hc
        simp at hc
      · rw [if_neg hIcon] at hc
        rw [if_neg hIcon]
        have he : c = nodeClassOf ctx.rootClass (Node.mk d cs) isRoot rcn := by simpa using hc
        subst he
        exact cmKeys_register_self _ _ _
    · rw [if_neg hInst] at hc ⊢
      by_cases hRoot : isRoot = true
      · rw [if_pos hRoot] at hc ⊢
        rcases List.mem_cons.mp hc with h | h
        · subst h
          repeat' split
          all_goals exact cmKeys_register_self _ _ _
        · have hmem := jsxRefClassesList_sub ctx cs (indent + 1) rcn cm c h
          repeat' split
          all_goals exact cmKeys_register_sub _ _ _ c hmem
      · rw [if_neg hRoot] at hc ⊢
        by_cases hImg : (getTag (Node.mk d cs) == "img") = true
        · rw [if_pos hImg] at hc ⊢
          have he : c = nodeClassOf ctx.rootClass (Node.mk d cs) isRoot rcn := by simpa using hc
          subst he
          exact cmKeys_register_self _ _ _
        · rw [if_neg hImg] at hc ⊢
          by_cases hSpan : (getTag (Node.mk d cs) == "span" && truthyChars d.characters) = true
          · rw [if_pos hSpan] at hc ⊢
            have he : c = nodeClassOf ctx.rootClass (Node.mk d cs) isRoot rcn := by simpa using hc
            subst he
            exact cmKeys_register_self _ _ _
          · rw [if_neg hSpan] at hc ⊢
            rcases List.mem_cons.mp hc with h | h
            · subst h
              repeat' split
              all_goals exact cmKeys_register_self _ _ _
            · have hmem := jsxRefClassesList_sub ctx cs (indent + 1) rcn cm c h
              repeat' split
              all_goals exact cmKeys_register_sub _ _ _ c hmem

theorem jsxRefClassesList_sub (ctx : Ctx) (ns : List Node) (ind : Nat)
    (rcn : Option String) (cm : CMap) :
    ∀ c ∈ jsxRefClassesList ctx ns rcn,
      c ∈ cmKeys (nodeToJsxList ctx ns ind rcn cm).2 := by
  match ns with
  | [] =>
    intro c hc
    simp [jsxRefClassesList] at hc
  | n :: rest =>
    intro c hc
    simp only [jsxRefClassesList] at hc
    simp only [nodeToJsxList]
    rcases List.mem_append.mp hc with h | h
    · exact nodeToJsxList_keys_mono ctx rest ind rcn _ c
        (jsxRefClasses_sub ctx n ind false rcn cm c h)
    · exact jsxRefClassesList_sub ctx rest ind rcn _ c h
end

theorem nodeClassOf_root (rc : String) (n : Node)
    (h0 : rc = "" → sanitize (jsStringOf n.data.name) = rc) :
    nodeClassOf rc n true (some rc) = rc := by
  unfold nodeClassOf truthyOpt
  by_cases h : (rc == "") = true
  · simp only [if_pos h, if_true]
    exact h0 (by simpa using h)
  · simp only [if_neg h, if_true]

theorem rootClassOf_empty (figmaNode : Node) (rco : Option String)
    (h : rootClassOf figmaNode rco = "") :
    sanitize (jsStringOf figmaNode.data.name) = rootClassOf figmaNode rco := by
  rcases rco with _ | s
  · rfl
  · by_cases hs : (s == "") = true
    · have htr : truthyOpt (some s) = none := by simp [truthyOpt, hs]
      unfold rootClassOf
      rw [htr]
    · have htr : truthyOpt (some s) = some s := by simp [truthyOpt, hs]
      unfold rootClassOf at h
      rw [htr] at h
      exact absurd h (sanitize_ne_empty s (by simpa using hs))

theorem rootClass_mem_registry (figmaNode : Node) (rco : Option String) (doc : Node)
    (vmap : VMap) :
    rootClassOf figmaNode rco ∈ cmKeys (registryOf figmaNode rco doc vmap) := by
  unfold registryOf
  rcases figmaNode with ⟨d, cs⟩
  have hnc := nodeClassOf_root (rootClassOf (Node.mk d cs) rco) (Node.mk d cs)
    (fun he => rootClassOf_empty (Node.mk d cs) rco he)
  simp only [nodeToJsx, ctxOf]
  rw [if_neg (by simp)]
  repeat' split
  all_goals rw [hnc]
  all_goals exact cmKeys_register_self _ _ _

/-- C5 (amended): every class name that receives a rule in the produced
stylesheet - the root class and every registry entry with a nonempty rule -
is the class of a node registered by the markup walk, and every class name
the markup references as styles.X is likewise a registered class.  The two
sets need not coincide: a markup-referenced class whose resolved rule is
empty has no stylesheet rule, and the registered class of an icon instance
can carry a rule without ever being referenced in the markup (see the
counterexample). -/
theorem claim_C5_classes_amended (figmaNode : Node) (rco : Option String) (doc : Node)
    (vmap : VMap) :
    (∀ c ∈ scssRuleClasses figmaNode rco doc vmap,
      c ∈ cmKeys (registryOf figmaNode rco doc vmap)) ∧
    (∀ c ∈ jsxRefClasses (ctxOf doc vmap (rootClassOf figmaNode rco)) figmaNode true
        (some (rootClassOf figmaNode rco)),
      c ∈ cmKeys (registryOf figmaNode rco doc vmap)) := by
  constructor
  · intro c hc
    unfold scssRuleClasses at hc
    dsimp only at hc
    split at hc
    · simp at hc
    · rcases List.mem_cons.mp hc with h | h
      · subst h
        exact rootClass_mem_registry figmaNode rco doc vmap
      · rw [List.mem_filterMap] at h
        obtain ⟨p, hp, he⟩ := h
        split at he
        · cases he
        · injection he with he
          subst he
          exact List.mem_map_of_mem Prod.fst hp
  · intro c hc
    unfold registryOf
    exact jsxRefClasses_sub (ctxOf doc vmap (rootClassOf figmaNode rco)) figmaNode 0 true
      (some (rootClassOf figmaNode rco)) [] c hc

/-- Witness for the amended C5: in the counterexample document the root
class card has a stylesheet rule and is indeed a registered class. -/
theorem claim_C5_classes_amended_witness :
    "card" ∈ cmKeys (registryOf c5Card none c5Doc []) :=
  (claim_C5_classes_amended c5Card none c5Doc []).1 "card" (by decide)
